import Mathlib

/-!
Verification of the trace-reconstruction subsystem of this repository
(`plugins/dev-plugin/hooks/scripts/langfuse-transcript-sync.py` and
`plugins/dev-plugin/hooks/scripts/observability-tracker-unified.py`).

Modelling conventions, shared by all definitions below:

* Python/JSON values are modelled by the inductive type `Json`; Python's
  `None` is `Json.null`.  JSON numbers are modelled as integers (the logs
  under study only carry integer counters; floats are outside the model).
  Dictionaries are insertion-ordered association lists, as in CPython:
  assignment to an existing key keeps its position, assignment to a fresh
  key appends (`setField`).
* A Python expression that can raise is modelled in `Py α := Except String α`;
  the string is a stand-in for the exception rendering.
* Filesystem and network interaction points (file contents, config loading,
  environment variables, the Langfuse client) are inputs of the model: a
  transcript file is the list of its lines, each line given as its
  `json.loads` outcome (`none` for a `JSONDecodeError`).
* Emission to the backend (`create_trace`) is modelled as appending the
  finalized `Turn` record to an output list; the `Turn` record keeps the
  grouped messages themselves (user message, merged assistant messages,
  attached tool-result messages), which determine everything `create_trace`
  renders for the turn.
-/

namespace TranscriptSync

/-- JSON / Python value model (`json.loads` results and dict/list literals).
Numbers are integers; dictionaries are insertion-ordered association lists. -/
inductive Json where
  | null : Json
  | bool : Bool → Json
  | num : Int → Json
  | str : String → Json
  | arr : List Json → Json
  | obj : List (String × Json) → Json
deriving Repr

/-- First-match lookup in an association list (CPython dicts produced by
`json.loads` have no duplicate keys, so first-match agrees with dict lookup). -/
def lookupField : List (String × Json) → String → Option Json
  | [], _ => none
  | (k, v) :: rest, key => if k = key then some v else lookupField rest key

/-- Python dict assignment `d[k] = v`: an existing key keeps its position,
a fresh key is appended at the end. -/
def setField : List (String × Json) → String → Json → List (String × Json)
  | [], k, v => [(k, v)]
  | (k', v') :: rest, k, v =>
      if k' = k then (k, v) :: rest else (k', v') :: setField rest k v

/-- Python truthiness of a JSON value (`bool(x)`). -/
def truthy : Json → Bool
  | .null => false
  | .bool b => b
  | .num n => n != 0
  | .str s => s != ""
  | .arr items => !items.isEmpty
  | .obj fields => !fields.isEmpty

mutual

/-- Python `==` on JSON values: numbers and booleans compare by value
(`True == 1`), strings only equal strings, lists compare pointwise,
dicts compare fieldwise (duplicate-free, insertion order as produced
by `json.loads`). -/
def pyEq : Json → Json → Bool
  | .null, .null => true
  | .bool a, .bool b => a == b
  | .bool a, .num n => (if a then (1 : Int) else 0) == n
  | .num n, .bool a => n == (if a then (1 : Int) else 0)
  | .num a, .num b => a == b
  | .str a, .str b => a == b
  | .arr a, .arr b => pyEqList a b
  | .obj a, .obj b => pyEqFields a b
  | _, _ => false

def pyEqList : List Json → List Json → Bool
  | [], [] => true
  | a :: as', b :: bs' => pyEq a b && pyEqList as' bs'
  | _, _ => false

def pyEqFields : List (String × Json) → List (String × Json) → Bool
  | [], [] => true
  | (k, v) :: as', (k', v') :: bs' => (k == k') && pyEq v v' && pyEqFields as' bs'
  | _, _ => false

end

mutual

/-- Python `str()` rendering of a JSON value (used by
`merge_assistant_parts` for non-list truthy content). -/
def pyStr : Json → String
  | .null => "None"
  | .bool true => "True"
  | .bool false => "False"
  | .num n => toString n
  | .str s => s
  | .arr items => "[" ++ pyStrList items ++ "]"
  | .obj fields => "\x7b" ++ pyStrFields fields ++ "\x7d"

def pyStrList : List Json → String
  | [] => ""
  | [x] => pyStr x
  | x :: xs => pyStr x ++ ", " ++ pyStrList xs

def pyStrFields : List (String × Json) → String
  | [] => ""
  | [(k, v)] => k ++ ": " ++ pyStr v
  | (k, v) :: xs => k ++ ": " ++ pyStr v ++ ", " ++ pyStrFields xs

end

/-- A Python computation that may raise; the string stands for the
exception text. -/
abbrev Py (α : Type) := Except String α

/-- `x.get(k)` on a possibly-non-dict value: raises `AttributeError`
when `x` is not a dict, otherwise returns the value or `None`. -/
def pyGet (j : Json) (k : String) : Py Json :=
  match j with
  | .obj fields => .ok ((lookupField fields k).getD .null)
  | _ => .error "AttributeError"

/-- `x.get(k, d)` on a possibly-non-dict value. -/
def pyGetD (j : Json) (k : String) (d : Json) : Py Json :=
  match j with
  | .obj fields => .ok ((lookupField fields k).getD d)
  | _ => .error "AttributeError"

/-- `k in x` for a dict `x`. -/
def hasKey : Json → String → Bool
  | .obj fields, k => (lookupField fields k).isSome
  | _, _ => false

/-- Whether a JSON value is hashable in Python (usable as a dict key). -/
def hashable : Json → Bool
  | .arr _ => false
  | .obj _ => false
  | _ => true

/-- `get_content(msg)` (langfuse-transcript-sync.py lines 79-85): the
`content` of the embedded `message` when present, else the top-level
`content`; `None` for non-dict input.  Raises when the `message` field
exists but is not a dict. -/
def get_content (msg : Json) : Py Json :=
  match msg with
  | .obj fields =>
      match lookupField fields "message" with
      | some m => pyGet m "content"
      | none => .ok ((lookupField fields "content").getD .null)
  | _ => .ok .null

/-- `is_tool_result(msg)` (lines 88-96): the content is a list with at
least one dict item of type `"tool_result"`. -/
def is_tool_result (msg : Json) : Py Bool := do
  let content ← get_content msg
  match content with
  | .arr items =>
      pure (items.any fun item =>
        match item with
        | .obj fields => pyEq ((lookupField fields "type").getD .null) (.str "tool_result")
        | _ => false)
  | _ => pure false

/-- `get_tool_calls(msg)` (lines 99-107): the dict items of a list
content whose type is `"tool_use"`. -/
def get_tool_calls (msg : Json) : Py (List Json) := do
  let content ← get_content msg
  match content with
  | .arr items =>
      pure (items.filter fun item =>
        match item with
        | .obj fields => pyEq ((lookupField fields "type").getD .null) (.str "tool_use")
        | _ => false)
  | _ => pure []

/-- `merge_assistant_parts(parts)` (lines 126-147): concatenate the list
contents (wrapping truthy non-list content as a text block) and install
the merged list into a copy of the first part. -/
def merge_assistant_parts (parts : List Json) : Py Json := do
  match parts with
  | [] => pure (Json.obj [])
  | p0 :: _ => do
      let mergedContent ← parts.foldlM
        (fun acc part => do
          let content ← get_content part
          match content with
          | .arr items => pure (acc ++ items)
          | c =>
              if truthy c then
                pure (acc ++ [Json.obj [("type", .str "text"), ("text", .str (pyStr c))]])
              else
                pure acc)
        ([] : List Json)
      match p0 with
      | .obj fields =>
          match lookupField fields "message" with
          | some (.obj mfields) =>
              pure (.obj (setField fields "message"
                (.obj (setField mfields "content" (.arr mergedContent)))))
          | some _ => .error "AttributeError"
          | none => pure (.obj (setField fields "content" (.arr mergedContent)))
      | _ => .error "TypeError"

/-- The role computation of the grouping loops (lines 393 and 528):
`msg.get("type") or msg.get("message", \x7b\x7d).get("role")`.
Raises for a non-dict message or a non-dict `message` field. -/
def msgRole (msg : Json) : Py Json :=
  match msg with
  | .obj fields =>
      let t := (lookupField fields "type").getD .null
      if truthy t then .ok t
      else pyGet ((lookupField fields "message").getD (.obj [])) "role"
  | _ => .error "AttributeError"

/-- The assistant message-id extraction (lines 440-442):
`msg["message"].get("id")` when a `message` field exists, else `None`. -/
def assistantMsgId (msg : Json) : Py Json :=
  match msg with
  | .obj fields =>
      match lookupField fields "message" with
      | some m => pyGet m "id"
      | none => pure .null
  | _ => pure .null

/-- A tool-call record built by `process_subagent_transcript`
(lines 534-540): `\x7bname, input, output, id, timestamp\x7d`. -/
structure ToolCall where
  name : Json
  input : Json
  output : Json
  id : Json
  timestamp : Json
deriving Repr

/-- Python-dict assignment on a Json-keyed association list: replace the
(unique) entry with an equal key in place, else append. -/
def assocSet {α : Type} : List (Json × α) → Json → α → List (Json × α)
  | [], k, v => [(k, v)]
  | (k', v') :: rest, k, v =>
      if pyEq k' k then (k, v) :: rest else (k', v') :: assocSet rest k v

/-- Python-dict lookup on a Json-keyed association list. -/
def assocGet {α : Type} : List (Json × α) → Json → Option α
  | [], _ => none
  | (k', v) :: rest, k => if pyEq k' k then some v else assocGet rest k

/-- Python `del d[k]` on a Json-keyed association list. -/
def assocDel {α : Type} : List (Json × α) → Json → List (Json × α)
  | [], _ => []
  | (k', v) :: rest, k => if pyEq k' k then rest else (k', v) :: assocDel rest k

/-- A finalized turn as emitted by `create_trace`
(lines 427-430 and 465-468): the turn number together with the grouped
messages that determine the emitted trace. -/
structure Turn where
  turnNum : Int
  user : Json
  assistants : List Json
  toolResults : List Json
deriving Repr

/-- The mutable locals of the grouping loop in `process_transcript`
(lines 382-390): `current_user`, `current_assistants`,
`current_assistant_parts`, `current_msg_id`, `current_tool_results`,
the pass-constant `turn_count`, the counter `turns`, and
`subagent_tools_map`.  Python `None` is `Json.null`. -/
structure GroupState where
  currentUser : Json
  currentAssistants : List Json
  currentAssistantParts : List Json
  currentMsgId : Json
  currentToolResults : List Json
  turnCount : Int
  turns : Nat
  subagentMap : List (Json × String × List ToolCall)
deriving Repr

/-- The loop state at the start of a pass (lines 385-390) with the
session's persisted `turn_count`. -/
def initState (tc : Int) : GroupState :=
  { currentUser := .null, currentAssistants := [], currentAssistantParts := [],
    currentMsgId := .null, currentToolResults := [], turnCount := tc, turns := 0,
    subagentMap := [] }

/-- The body of the inner loop of lines 408-416: for a `tool_result`
content item with a truthy `tool_use_id`, map that id to
`(agent_id, subagent_data[agent_id])` in `subagent_tools_map`.
An unhashable id raises `TypeError` on dict assignment. -/
def linkItem (aid : String) (tools : List ToolCall)
    (m : List (Json × String × List ToolCall)) (item : Json) :
    Py (List (Json × String × List ToolCall)) :=
  match item with
  | .obj ifields =>
      if pyEq ((lookupField ifields "type").getD .null) (.str "tool_result") then
        let toolId := (lookupField ifields "tool_use_id").getD .null
        if truthy toolId then
          if hashable toolId then pure (assocSet m toolId (aid, tools))
          else .error "TypeError"
        else pure m
      else pure m
  | _ => pure m

/-- The inner loop of lines 408-416 over the content items. -/
def linkSubagentTools (aid : String) (tools : List ToolCall) (items : List Json)
    (m : List (Json × String × List ToolCall)) :
    Py (List (Json × String × List ToolCall)) :=
  items.foldlM (linkItem aid tools) m

/-- One iteration of the grouping loop of `process_transcript`
(lines 392-458), parametrised by `subagent_data` (`sd`).  Returns the
updated locals and the turn finalized by this message, if any
(`create_trace` modelled as emission of the `Turn` record). -/
def step (sd : List (String × List ToolCall)) (s : GroupState) (msg : Json) :
    Py (GroupState × List Turn) := do
  let role ← msgRole msg
  if pyEq role (.str "user") then do
    let tr ← is_tool_result msg
    if tr then do
      let s := {s with currentToolResults := s.currentToolResults ++ [msg]}
      let tur ← pyGet msg "toolUseResult"
      match tur with
      | .obj turFields =>
          let agentId := (lookupField turFields "agentId").getD .null
          if truthy agentId then
            match agentId with
            | .str aid =>
                match sd.lookup aid with
                | some tools => do
                    let content ← get_content msg
                    match content with
                    | .arr items => do
                        let m ← linkSubagentTools aid tools items s.subagentMap
                        pure ({s with subagentMap := m}, [])
                    | _ => pure (s, [])
                | none => pure (s, [])
            | .arr _ => .error "TypeError"
            | .obj _ => .error "TypeError"
            | _ => pure (s, [])
          else pure (s, [])
      | _ => pure (s, [])
    else do
      let s ← (if truthy s.currentMsgId && !s.currentAssistantParts.isEmpty then do
          let merged ← merge_assistant_parts s.currentAssistantParts
          pure {s with currentAssistants := s.currentAssistants ++ [merged],
                       currentAssistantParts := [], currentMsgId := .null}
        else pure s)
      let p :=
        if truthy s.currentUser && !s.currentAssistants.isEmpty then
          ({s with turns := s.turns + 1},
           [{ turnNum := s.turnCount + (s.turns + 1 : Nat), user := s.currentUser,
              assistants := s.currentAssistants, toolResults := s.currentToolResults }])
        else (s, ([] : List Turn))
      pure ({p.1 with currentUser := msg, currentAssistants := [],
                      currentAssistantParts := [], currentMsgId := .null,
                      currentToolResults := []}, p.2)
  else if pyEq role (.str "assistant") then do
    let msgId ← assistantMsgId msg
    if !truthy msgId then
      pure ({s with currentAssistantParts := s.currentAssistantParts ++ [msg]}, [])
    else if pyEq msgId s.currentMsgId then
      pure ({s with currentAssistantParts := s.currentAssistantParts ++ [msg]}, [])
    else do
      let s ← (if truthy s.currentMsgId && !s.currentAssistantParts.isEmpty then do
          let merged ← merge_assistant_parts s.currentAssistantParts
          pure {s with currentAssistants := s.currentAssistants ++ [merged]}
        else pure s)
      pure ({s with currentMsgId := msgId, currentAssistantParts := [msg]}, [])
  else
    pure (s, [])

/-- Run the grouping loop over a message list, collecting the emitted
turns.  A raised exception stops the loop; the turns emitted before it
are kept and the flag records the crash (in the source the exception
propagates to the caller after the earlier `create_trace` calls have
already been made). -/
def runLoopP (sd : List (String × List ToolCall)) :
    GroupState → List Json → GroupState × List Turn × Bool
  | s, [] => (s, [], false)
  | s, msg :: msgs =>
      match step sd s msg with
      | .error _ => (s, [], true)
      | .ok (s', out) =>
          let r := runLoopP sd s' msgs
          (r.1, out ++ r.2.1, r.2.2)

/-- The end-of-log processing of lines 460-468: merge a pending
assistant message, then finalize the open turn when there is a truthy
user message and at least one merged assistant response. -/
def finalizePass (s : GroupState) : Py (GroupState × List Turn) := do
  let s ← (if truthy s.currentMsgId && !s.currentAssistantParts.isEmpty then do
      let merged ← merge_assistant_parts s.currentAssistantParts
      pure {s with currentAssistants := s.currentAssistants ++ [merged]}
    else pure s)
  if truthy s.currentUser && !s.currentAssistants.isEmpty then
    pure ({s with turns := s.turns + 1},
      [{ turnNum := s.turnCount + (s.turns + 1 : Nat), user := s.currentUser,
         assistants := s.currentAssistants, toolResults := s.currentToolResults }])
  else
    pure (s, [])

/-- A whole grouping pass over the (already JSON-parsed) new messages of
a transcript, from the persisted turn counter `tc`: the loop of
lines 392-458 followed by the end-of-log processing of lines 460-468.
Returns the emitted turns, the number of turns finalized by the pass
(the `turns` local), and whether the pass raised. -/
def groupPass (sd : List (String × List ToolCall)) (tc : Int) (msgs : List Json) :
    List Turn × Nat × Bool :=
  let r := runLoopP sd (initState tc) msgs
  if r.2.2 then (r.2.1, r.1.turns, true)
  else
    match finalizePass r.1 with
    | .error _ => (r.2.1, r.1.turns, true)
    | .ok (s', out) => (r.2.1 ++ out, s'.turns, false)

mutual

/-- `json.dumps` rendering (string escaping elided; no claim depends on
the concrete rendering, only on which value is serialized). -/
def jsonDumps : Json → String
  | .null => "null"
  | .bool true => "true"
  | .bool false => "false"
  | .num n => toString n
  | .str s => "\"" ++ s ++ "\""
  | .arr items => "[" ++ jsonDumpsList items ++ "]"
  | .obj fields => "\x7b" ++ jsonDumpsFields fields ++ "\x7d"

def jsonDumpsList : List Json → String
  | [] => ""
  | [x] => jsonDumps x
  | x :: xs => jsonDumps x ++ ", " ++ jsonDumpsList xs

def jsonDumpsFields : List (String × Json) → String
  | [] => ""
  | [(k, v)] => "\"" ++ k ++ "\": " ++ jsonDumps v
  | (k, v) :: xs => "\"" ++ k ++ "\": " ++ jsonDumps v ++ ", " ++ jsonDumpsFields xs

end

/-- A filesystem operation performed by the state store. -/
inductive FsOp where
  | mkdirParents : String → FsOp
  | writeText : String → String → FsOp
  | rename : String → String → FsOp
deriving Repr, DecidableEq

/-- Whether a filesystem operation is a rename/replace. -/
def isRename : FsOp → Bool
  | .rename _ _ => true
  | _ => false

/-- `save_state(state_file, state)` (lines 69-72) as the sequence of
filesystem operations it performs: create the parent directory, then
write the serialized state directly to the state file path. -/
def save_state (stateFileParent stateFilePath : String) (state : Json) : List FsOp :=
  [.mkdirParents stateFileParent, .writeText stateFilePath (jsonDumps state)]

/-- `load_state(state_file)` (lines 59-66) over the state file's read
outcome: `none` = file missing, `some none` = unreadable or unparsable
text, `some (some j)` = parsed contents. -/
def load_state (stateFileRead : Option (Option Json)) : Json :=
  match stateFileRead with
  | none => .obj []
  | some none => .obj []
  | some (some j) => j

/-- `v >= n` for a JSON value against an int (Python raises `TypeError`
on non-numeric left operands). -/
def pyCmpGeInt (j : Json) (n : Int) : Py Bool :=
  match j with
  | .num m => .ok (n ≤ m)
  | .bool b => .ok (n ≤ (if b then 1 else 0))
  | _ => .error "TypeError"

/-- Numeric value of a JSON number or boolean; `TypeError` otherwise. -/
def jsonToInt (j : Json) : Py Int :=
  match j with
  | .num m => .ok m
  | .bool b => .ok (if b then 1 else 0)
  | _ => .error "TypeError"

/-- Python `range(a, b)` over integers. -/
def intRange (a b : Int) : List Int :=
  (List.range (b - a).toNat).map (fun k => a + k)

/-- Python list indexing `xs[i]` with negative-index wrap-around and
`IndexError` out of range. -/
def pyIndex {α : Type} (xs : List α) (i : Int) : Py α :=
  let j : Int := if 0 ≤ i then i else (xs.length : Int) + i
  if 0 ≤ j then
    match xs.get? j.toNat with
    | some x => .ok x
    | none => .error "IndexError"
  else .error "IndexError"

/-- The incremental-read loop of lines 368-374 (and 510-517): parse
`lines[i]` for `i in range(last_line, total_lines)`, skipping lines
whose JSON decoding failed (`none` entries).  `IndexError` from a
negative stored offset is not caught and propagates. -/
def parseNewMessages (lines : List (Option Json)) (lastLine : Int) : Py (List Json) :=
  (intRange lastLine lines.length).foldlM
    (fun acc i => do
      let line ← pyIndex lines i
      match line with
      | some msg => pure (acc ++ [msg])
      | none => pure acc)
    []

/-- Result of one `process_transcript` invocation: the returned turn
count, the turns emitted to the backend, the state mapping after the
pass, and whether `save_state` was called. -/
structure ProcResult where
  turns : Nat
  emitted : List Turn
  newState : Json
  saved : Bool
deriving Repr

/-- `process_transcript` (lines 344-478) over the transcript's parsed
lines and the loaded state mapping; `now` stands for the
`datetime.now(timezone.utc).isoformat()` value written to the cursor.
A non-numeric stored `turn_count` raises at its first use (the first
`turn_num` computation or the final state update), before any emission
or save; the model raises at that point via `jsonToInt`. -/
def process_transcript (sd : List (String × List ToolCall)) (sessionId : String)
    (lines : List (Option Json)) (state : Json) (now : String) : Py ProcResult := do
  let sessionState ← pyGetD state sessionId (.obj [])
  let lastLineJ ← pyGetD sessionState "last_line" (.num 0)
  let turnCountJ ← pyGetD sessionState "turn_count" (.num 0)
  let totalLines : Int := lines.length
  let noNew ← pyCmpGeInt lastLineJ totalLines
  if noNew then
    pure { turns := 0, emitted := [], newState := state, saved := false }
  else do
    let lastLine ← jsonToInt lastLineJ
    let newMessages ← parseNewMessages lines lastLine
    if newMessages.isEmpty then
      pure { turns := 0, emitted := [], newState := state, saved := false }
    else do
      let tc ← jsonToInt turnCountJ
      let r := groupPass sd tc newMessages
      if r.2.2 then .error "Exception"
      else
        match state with
        | .obj stateFields =>
            pure { turns := r.2.1, emitted := r.1,
                   newState := Json.obj (setField stateFields sessionId
                     (.obj [("last_line", .num totalLines),
                            ("turn_count", .num (tc + (r.2.1 : Nat))),
                            ("updated", .str now)])),
                   saved := true }
        | _ => .error "TypeError"

/-- One iteration of the extraction loop of `process_subagent_transcript`
(lines 527-552) over the accumulator `(tool_calls, pending_tools)`. -/
def subStep (acc : List ToolCall × List (Json × ToolCall)) (msg : Json) :
    Py (List ToolCall × List (Json × ToolCall)) := do
  let role ← msgRole msg
  if pyEq role (.str "assistant") then do
    let tus ← get_tool_calls msg
    tus.foldlM
      (fun acc tu => do
        let toolId ← pyGet tu "id"
        let name ← pyGet tu "name"
        let input ← pyGet tu "input"
        let ts ← pyGet msg "timestamp"
        if hashable toolId then
          pure (acc.1, assocSet acc.2 toolId
            { name := name, input := input, output := .null, id := toolId, timestamp := ts })
        else .error "TypeError")
      acc
  else if pyEq role (.str "user") then do
    let tr ← is_tool_result msg
    if tr then do
      let content ← get_content msg
      match content with
      | .arr items =>
          items.foldlM
            (fun acc item =>
              match item with
              | .obj ifields =>
                  if pyEq ((lookupField ifields "type").getD .null) (.str "tool_result") then
                    let toolId := (lookupField ifields "tool_use_id").getD .null
                    if hashable toolId then
                      match assocGet acc.2 toolId with
                      | some t =>
                          pure (acc.1 ++ [{t with output := (lookupField ifields "content").getD .null}],
                                assocDel acc.2 toolId)
                      | none => pure acc
                    else .error "TypeError"
                  else pure acc
              | _ => pure acc)
            acc
      | _ => pure acc
    else pure acc
  else pure acc

/-- Result of one `process_subagent_transcript` invocation. -/
structure SubResult where
  toolCalls : List ToolCall
  newState : Json
  saved : Bool
deriving Repr

/-- `process_subagent_transcript` (lines 481-566) over the subagent
transcript's parsed lines and the loaded state mapping.  The state key
is `"<session_id>/agent-<agent_id>"`; unmatched pending tools are
appended to the returned list after the matched ones (line 555). -/
def process_subagent_transcript (sessionId agentId : String)
    (lines : List (Option Json)) (state : Json) (now : String) : Py SubResult := do
  let stateKey := sessionId ++ "/agent-" ++ agentId
  let subagentState ← pyGetD state stateKey (.obj [])
  let lastLineJ ← pyGetD subagentState "last_line" (.num 0)
  let totalLines : Int := lines.length
  let noNew ← pyCmpGeInt lastLineJ totalLines
  if noNew then
    pure { toolCalls := [], newState := state, saved := false }
  else do
    let lastLine ← jsonToInt lastLineJ
    let newMessages ← parseNewMessages lines lastLine
    if newMessages.isEmpty then
      pure { toolCalls := [], newState := state, saved := false }
    else do
      let r ← newMessages.foldlM subStep ([], [])
      let toolCalls := r.1 ++ r.2.map (·.2)
      match state with
      | .obj stateFields =>
          pure { toolCalls := toolCalls,
                 newState := Json.obj (setField stateFields stateKey
                   (.obj [("last_line", .num totalLines),
                          ("tool_count", .num toolCalls.length),
                          ("updated", .str now)])),
                 saved := true }
      | _ => .error "TypeError"

/-- Python `a or b`: the first operand when truthy, else the second. -/
def pyOr (a b : Json) : Json := if truthy a then a else b

/-- `os.environ.get(k)` over an abstract environment-variable table. -/
def envJson (envVars : List (String × String)) (k : String) : Json :=
  match envVars.lookup k with
  | some v => .str v
  | none => .null

/-- Observable process outcome: exit status and the lines printed to
standard output. -/
structure MainResult where
  exitCode : Nat
  stdoutLines : List String
deriving Repr, DecidableEq

/-- Environment of one `langfuse-transcript-sync.py` invocation: the
configuration returned by `load_config`, the environment variables, the
Langfuse client construction outcome, the state file's read outcome,
the transcript found by `find_latest_transcript` (session id plus
parsed lines), and the subagent transcripts found by
`find_subagent_transcripts` (agent id plus parsed lines). -/
structure SyncEnv where
  config : Json
  envVars : List (String × String)
  langfuseInitOk : Bool
  stateFileRead : Option (Option Json)
  foundTranscript : Option (String × List (Option Json))
  subagentFiles : List (String × List (Option Json))
  now : String

/-- `main()` of `langfuse-transcript-sync.py` (lines 573-686).  All its
handled termination paths call `sys.exit(0)` and print nothing to
standard output (the script's messages go to its log file); an exception
raised while processing a subagent transcript (lines 656-663, outside
the `try` of lines 666-684) propagates and terminates the process with
a Python traceback and exit status 1. -/
def syncMain (env : SyncEnv) : MainResult :=
  let run : Py (List String) := do
    let obsConfig ← pyGetD env.config "observability" (.obj [])
    let lfConfig ← pyGetD obsConfig "langfuse" (.obj [])
    let enabled ← pyGetD lfConfig "enabled" (.bool false)
    if !truthy enabled then pure []
    else do
      let pk0 ← pyGet lfConfig "public_key"
      let sk0 ← pyGet lfConfig "secret_key"
      let pk := pyOr pk0 (pyOr (envJson env.envVars "CC_LANGFUSE_PUBLIC_KEY")
                               (envJson env.envVars "LANGFUSE_PUBLIC_KEY"))
      let sk := pyOr sk0 (pyOr (envJson env.envVars "CC_LANGFUSE_SECRET_KEY")
                               (envJson env.envVars "LANGFUSE_SECRET_KEY"))
      if !truthy pk || !truthy sk then pure []
      else if !env.langfuseInitOk then pure []
      else do
        let state := load_state env.stateFileRead
        match env.foundTranscript with
        | none => pure []
        | some st => do
            let r ← env.subagentFiles.foldlM
              (fun (acc : Json × List (String × List ToolCall)) p => do
                let sub ← process_subagent_transcript st.1 p.1 p.2 acc.1 env.now
                pure (sub.newState, acc.2 ++ [(p.1, sub.toolCalls)]))
              (state, [])
            let _ := process_transcript r.2 st.1 st.2 r.1 env.now
            pure []
  match run with
  | .ok out => { exitCode := 0, stdoutLines := out }
  | .error _ => { exitCode := 1, stdoutLines := [] }

end TranscriptSync

namespace ObservabilityTracker

open TranscriptSync

/-- Observable tracking effect of the unified tracker: a debug-log
entry (written only in debug mode), a legacy trace event, the start of
a tool span, or the end of a tool span with its output payload and
error status. -/
inductive TrackAction where
  | debugLog : String → TrackAction
  | traceEvent : String → TrackAction
  | spanStart : Json → Json → Json → TrackAction
  | spanEnd : Json → Json → Bool → TrackAction
deriving Repr

/-- Whether an action closes a span. -/
def isSpanEnd : TrackAction → Bool
  | .spanEnd _ _ _ => true
  | _ => false

/-- Whether an action starts a span. -/
def isSpanStart : TrackAction → Bool
  | .spanStart _ _ _ => true
  | _ => false

/-- Whether an action is a debug-log entry with the given event name. -/
def isDebugLog (s : String) : TrackAction → Bool
  | .debugLog s' => s' == s
  | _ => false

/-- An in-flight span stored in `active_spans`. -/
structure SpanRec where
  toolName : Json
  input : Json
deriving Repr

/-- The in-memory state of one `ObservabilityTracker` object
(observability-tracker-unified.py lines 33-57): the `active_spans`
correlation dict and the session metrics counters (clock-valued metrics
are outside the model). -/
structure Tracker where
  activeSpans : List (Json × SpanRec)
  toolCount : Nat
  toolErrors : Nat
  toolSuccesses : Nat
  toolsByName : List (Json × Nat)
  promptCount : Nat
  subagentCount : Nat
deriving Repr

/-- The tracker state constructed by `ObservabilityTracker.__init__`.
`main()` constructs a fresh tracker in every process invocation
(line 811), so every hook event is handled starting from this state. -/
def freshTracker : Tracker :=
  { activeSpans := [], toolCount := 0, toolErrors := 0, toolSuccesses := 0,
    toolsByName := [], promptCount := 0, subagentCount := 0 }

/-- Per-invocation environment of the tracker: debug mode, whether
`_connect_langfuse` plus `_get_trace` produced a usable trace handle,
and whether the SDK trace object supports `span()`. -/
structure TrackerEnv where
  debugMode : Bool
  traceAvailable : Bool
  spanSupported : Bool

/-- `_debug_log` (lines 706-726): writes a debug entry only when debug
mode is enabled. -/
def dbg (env : TrackerEnv) (event : String) : List TrackAction :=
  if env.debugMode then [.debugLog event] else []

/-- The `\x7b"success": True, "suppressOutput": True\x7d` handler result. -/
def successDict : Json :=
  .obj [("success", .bool true), ("suppressOutput", .bool true)]

/-- `tools_by_name[tool_name] = tools_by_name.get(tool_name, 0) + 1`. -/
def bumpToolCount (m : List (Json × Nat)) (k : Json) : List (Json × Nat) :=
  assocSet m k ((assocGet m k).getD 0 + 1)

/-- `ObservabilityTracker.handle_pre_tool_use` (lines 235-301): update
metrics and, when a trace is available and spans are supported, start a
span for the tool and store it in `active_spans` under `tool_use_id`. -/
def handle_pre_tool_use (env : TrackerEnv) (t : Tracker) (hookInput : Json) :
    Py (Tracker × List TrackAction × Json) := do
  let acts := dbg env "PreToolUse"
  let sid ← pyGet hookInput "session_id"
  if !truthy sid then pure (t, acts, successDict)
  else do
    let toolUseId ← pyGet hookInput "tool_use_id"
    if !truthy toolUseId then
      pure (t, acts ++ dbg env "PreToolUseMissingID", successDict)
    else do
      let toolName ← pyGetD hookInput "tool_name" (.str "Unknown")
      let toolInput ← pyGetD hookInput "tool_input" (.obj [])
      if !hashable toolName then .error "TypeError"
      else do
        let t := {t with toolCount := t.toolCount + 1,
                         toolsByName := bumpToolCount t.toolsByName toolName}
        if env.traceAvailable then
          if !env.spanSupported then
            pure (t, acts ++ dbg env "SpanNotSupported" ++ [.traceEvent "pretool"], successDict)
          else
            let sp : SpanRec := { toolName := toolName, input := toolInput }
            pure ({t with activeSpans := assocSet t.activeSpans toolUseId sp},
                  acts ++ [.spanStart toolUseId toolName toolInput] ++ dbg env "SpanStarted",
                  successDict)
        else pure (t, acts, successDict)

/-- `ObservabilityTracker.handle_tool_use` (lines 303-369): look the
span up in `active_spans` by `tool_use_id`; end it with the result
payload and error status when found, otherwise only write the
`OrphanedPostToolUse` debug entry — the result payload is not recorded
anywhere else. -/
def handle_tool_use (env : TrackerEnv) (t : Tracker) (hookInput : Json) :
    Py (Tracker × List TrackAction × Json) := do
  let acts := dbg env "PostToolUse"
  let sid ← pyGet hookInput "session_id"
  if !truthy sid then pure (t, acts, successDict)
  else do
    let toolUseId ← pyGet hookInput "tool_use_id"
    if !truthy toolUseId then
      pure (t, acts ++ dbg env "PostToolUseMissingID", successDict)
    else do
      let span := assocGet t.activeSpans toolUseId
      let tr1 ← pyGet hookInput "tool_response"
      let tr2 ← pyGet hookInput "tool_result"
      let tr3 ← pyGet hookInput "result"
      let tr4 ← pyGet hookInput "output"
      let toolResult := pyOr tr1 (pyOr tr2 (pyOr tr3 (pyOr tr4 (.obj []))))
      let isError :=
        match toolResult with
        | .obj fs => truthy ((lookupField fs "error").getD .null)
        | _ => false
      let t := if isError then {t with toolErrors := t.toolErrors + 1}
               else {t with toolSuccesses := t.toolSuccesses + 1}
      match span with
      | some _ =>
          pure ({t with activeSpans := assocDel t.activeSpans toolUseId},
                acts ++ [.spanEnd toolUseId (if truthy toolResult then toolResult else .null) isError]
                     ++ dbg env "SpanEnded",
                successDict)
      | none =>
          pure (t, acts ++ dbg env "OrphanedPostToolUse", successDict)

/-- Outcome of each routed tracker handler for the current input,
including any exception it raises internally; `main`'s catch-all does
not depend on what the handlers do. -/
structure HandlerOutcomes where
  sessionStart : Py Json
  preToolUse : Py Json
  postToolUse : Py Json
  userPromptSubmit : Py Json
  subagentStart : Py Json
  subagentStop : Py Json
  stop : Py Json
  sessionEnd : Py Json

/-- The body of `main` of `observability-tracker-unified.py` guarded by
the outer `try` (lines 776-836): check the enabled flag, route by
`hook_event_name`, return the handler's result dict. -/
def unifiedBody (hookInput config : Json) (h : HandlerOutcomes) : Py Json := do
  let obs ← pyGetD config "observability" (.obj [])
  let enabled ← pyGetD obs "enabled" (.bool false)
  if !truthy enabled then pure successDict
  else do
    let ev ← pyGetD hookInput "hook_event_name" (.str "")
    if pyEq ev (.str "SessionStart") then h.sessionStart
    else if pyEq ev (.str "PreToolUse") then h.preToolUse
    else if pyEq ev (.str "PostToolUse") then h.postToolUse
    else if pyEq ev (.str "UserPromptSubmit") then h.userPromptSubmit
    else if pyEq ev (.str "SubagentStart") then h.subagentStart
    else if pyEq ev (.str "SubagentStop") then h.subagentStop
    else if pyEq ev (.str "Stop") then h.stop
    else if pyEq ev (.str "SessionEnd") then h.sessionEnd
    else pure successDict

/-- `main()` of `observability-tracker-unified.py` (lines 774-845):
parse stdin (a decode failure yields `\x7b\x7d`), run the routed body,
print the result dict as one JSON object and exit 0; any exception
escaping the body is caught by the outer handler, which also prints one
JSON object and exits 0. -/
def unifiedMain (stdinParsed : Option Json) (config : Json) (h : HandlerOutcomes) :
    MainResult :=
  match unifiedBody (stdinParsed.getD (Json.obj [])) config h with
  | .ok result => { exitCode := 0, stdoutLines := [jsonDumps result] }
  | .error e => { exitCode := 0, stdoutLines := [jsonDumps (Json.obj
      [("systemMessage", .str ("Observability error: " ++ e)),
       ("suppressOutput", .bool false)])] }

end ObservabilityTracker

namespace TranscriptSync

/-- Lookup of a key in a JSON mapping (`none` when absent or not a dict). -/
def jLookup (j : Json) (k : String) : Option Json :=
  match j with
  | .obj fields => lookupField fields k
  | _ => none

/-- Two grouping-loop states that agree on every component the grouping
decisions and emissions read: the five turn-building components, and the
effective turn numbering `turn_count + turns`.  (The write-only
`subagent_tools_map` and the split between the two counters are free.) -/
def EquivS (s t : GroupState) : Prop :=
  s.currentUser = t.currentUser ∧ s.currentAssistants = t.currentAssistants ∧
  s.currentAssistantParts = t.currentAssistantParts ∧ s.currentMsgId = t.currentMsgId ∧
  s.currentToolResults = t.currentToolResults ∧
  s.turnCount + (s.turns : Int) = t.turnCount + (t.turns : Int)

/-- Relation between two step/finalize outcomes: both raise, or both
succeed with equivalent states and identical emissions. -/
def OutRel (a b : Py (GroupState × List Turn)) : Prop :=
  match a, b with
  | .ok (s, o), .ok (t, p) => EquivS s t ∧ o = p
  | .error _, .error _ => True
  | _, _ => False

/-- The state reset performed by a plain user message after the open
turn is flushed (lines 449-456): the new message becomes the current
user and every other turn-building component is cleared. -/
def resetOn (u : Json) (s : GroupState) : GroupState :=
  { s with currentUser := u, currentAssistants := [], currentAssistantParts := [],
           currentMsgId := .null, currentToolResults := [] }

/-- The consecutive integers `a, a+1, ..., a+n-1`. -/
def consecInts (a : Int) (n : Nat) : List Int :=
  (List.range n).map (fun (i : Nat) => a + (i : Int))

/-- A sequence of grouping passes over one session with the turn counter
threaded between passes the way `process_transcript` persists it
(`turn_count + turns` written to the cursor, read back by the next
pass).  Stops at the first pass that raises. -/
def runPasses (sd : List (String × List ToolCall)) :
    Int → List (List Json) → List Turn × Int × Bool
  | tc, [] => ([], tc, false)
  | tc, p :: ps =>
      let r := groupPass sd tc p
      if r.2.2 then (r.1, tc, true)
      else
        let rest := runPasses sd (tc + (r.2.1 : Nat)) ps
        (r.1 ++ rest.1, rest.2.1, rest.2.2)

end TranscriptSync

namespace Examples

open TranscriptSync ObservabilityTracker

/-- A plain user message line. -/
def uMsg : Json := .obj [("type", .str "user"),
  ("message", .obj [("role", .str "user"), ("content", .str "hi")])]

/-- A second user message line. -/
def uMsg2 : Json := .obj [("type", .str "user"),
  ("message", .obj [("role", .str "user"), ("content", .str "again")])]

/-- An assistant message line carrying message id `m1`. -/
def aMsg : Json := .obj [("type", .str "assistant"),
  ("message", .obj [("role", .str "assistant"), ("id", .str "m1"),
    ("content", .arr [.obj [("type", .str "text"), ("text", .str "done")]])])]

/-- An assistant message line carrying message id `m2`. -/
def aMsg2 : Json := .obj [("type", .str "assistant"),
  ("message", .obj [("role", .str "assistant"), ("id", .str "m2"),
    ("content", .arr [.obj [("type", .str "text"), ("text", .str "done2")]])])]

/-- An assistant message line with no message id (an id-less fragment). -/
def idlessMsg : Json := .obj [("type", .str "assistant"),
  ("message", .obj [("role", .str "assistant"), ("content", .str "frag")])]

/-- A tool-result user line whose `tool_use_id` matches no invocation. -/
def orphanResult : Json := .obj [("type", .str "user"),
  ("message", .obj [("role", .str "user"),
    ("content", .arr [.obj [("type", .str "tool_result"),
      ("tool_use_id", .str "x"), ("content", .str "out")]])])]

/-- An assistant line invoking tool `t1` in a subagent transcript. -/
def toolUseMsg : Json := .obj [("type", .str "assistant"),
  ("message", .obj [("role", .str "assistant"),
    ("content", .arr [.obj [("type", .str "tool_use"), ("id", .str "t1"),
      ("name", .str "Bash"), ("input", .obj [])]])]),
  ("timestamp", .str "ts1")]

/-- The tool-call record that `process_subagent_transcript` builds for
`toolUseMsg` while its result is pending. -/
def pendingBash : ToolCall :=
  { name := .str "Bash", input := .obj [], output := .null,
    id := .str "t1", timestamp := .str "ts1" }

/-- The cursor written for session `s` after processing the one-line
log `[uMsg]` from an empty state. -/
def state1 : Json := .obj [("s", .obj
  [("last_line", .num 1), ("turn_count", .num 0), ("updated", .str "T0")])]

/-- A `PreToolUse` hook input for tool-use id `t1`. -/
def preInput : Json := .obj [("session_id", .str "s1"), ("tool_use_id", .str "t1"),
  ("tool_name", .str "Edit"), ("tool_input", .obj [("file", .str "x")]),
  ("hook_event_name", .str "PreToolUse")]

/-- The matching `PostToolUse` hook input for tool-use id `t1`. -/
def postInput : Json := .obj [("session_id", .str "s1"), ("tool_use_id", .str "t1"),
  ("tool_name", .str "Edit"), ("tool_response", .obj [("ok", .bool true)]),
  ("hook_event_name", .str "PostToolUse")]

/-- A tracker environment with a healthy backend and debug mode on. -/
def trackEnv : TrackerEnv :=
  { debugMode := true, traceAvailable := true, spanSupported := true }

/-- A tracker environment with a healthy backend and debug mode off. -/
def trackEnvQuiet : TrackerEnv :=
  { debugMode := false, traceAvailable := true, spanSupported := true }

/-- A sync-script environment whose configuration disables Langfuse. -/
def envDisabled : SyncEnv :=
  { config := .obj [("observability", .obj [("langfuse", .obj [("enabled", .bool false)])])],
    envVars := [], langfuseInitOk := true, stateFileRead := none,
    foundTranscript := none, subagentFiles := [], now := "T0" }

/-- A sync-script environment in which subagent processing raises: the
persisted entry under the subagent's state key is a string, so
`.get("last_line", 0)` on it raises `AttributeError` outside the
`try` of `main` (lines 656-663). -/
def envCrash : SyncEnv :=
  { config := .obj [("observability", .obj [("langfuse", .obj
      [("enabled", .bool true), ("public_key", .str "pk"), ("secret_key", .str "sk")])])],
    envVars := [], langfuseInitOk := true,
    stateFileRead := some (some (.obj [("s/agent-a1", .str "corrupt")])),
    foundTranscript := some ("s", [some uMsg]),
    subagentFiles := [("a1", [some toolUseMsg])], now := "T0" }

/-- A loop state holding a complete open turn: user `uMsg`, in-flight
id `m1`, one pending assistant part. -/
def openTurnState : GroupState :=
  { initState 0 with
      currentUser := uMsg
      currentMsgId := Json.str "m1"
      currentAssistantParts := [aMsg] }

/-- The state produced by `finalizePass openTurnState`. -/
def finalizedState : GroupState :=
  { openTurnState with
      currentAssistants := [aMsg]
      turns := 1 }

/-- The turn emitted by `finalizePass openTurnState`. -/
def finTurn : Turn :=
  { turnNum := 1, user := uMsg, assistants := [aMsg], toolResults := [] }

/-- A state mapping holding only an unrelated session's entry. -/
def otherState : Json := .obj [("other", .num 7)]

/-- The state mapping after processing session `s` from `otherState`. -/
def otherState2 : Json := .obj [("other", .num 7),
  ("s", .obj [("last_line", .num 1), ("turn_count", .num 0), ("updated", .str "T0")])]

end Examples

section ClaimProofs

open TranscriptSync ObservabilityTracker Examples

/-- C7 (counterexample): the claim says every save writes to a
temporary path and then renames it over the state file; on a concrete
save, `save_state` performs no rename at all — it creates the parent
directory and writes the serialized state directly to the state file
path in a single `write_text`. -/
theorem C7_counterexample :
    (save_state "dir" "state.json" (Json.obj [])).countP isRename = 0 ∧
    save_state "dir" "state.json" (Json.obj []) =
      [FsOp.mkdirParents "dir", FsOp.writeText "state.json" "\x7b\x7d"] := by
  exact ⟨rfl, rfl⟩

/-- C7 (amended): `save_state` is a direct write, not an atomic
replace: for every state-file path and state mapping it performs
exactly a parent-directory creation followed by one `write_text` of the
serialized state to the state file itself, with no temporary path and
no rename; an interrupted write can therefore leave a partially written
state file (which `load_state` degrades to the empty mapping). -/
theorem C7_save_state_direct_write (parent path : String) (state : Json) :
    save_state parent path state =
      [FsOp.mkdirParents parent, FsOp.writeText path (jsonDumps state)] := rfl

/-- C8 (counterexample): the claim asserts that the tracker scripts
always exit 0 and emit their status as a single JSON object on stdout.
`langfuse-transcript-sync.py` violates both halves: with Langfuse
disabled in config it exits 0 printing nothing at all to stdout, and
with an unreadable subagent cursor entry the `AttributeError` raised in
subagent processing (outside `main`'s `try`) crashes the process with
exit status 1. -/
theorem C8_counterexample :
    syncMain envDisabled = { exitCode := 0, stdoutLines := [] } ∧
    syncMain envCrash = { exitCode := 1, stdoutLines := [] } := by
  exact ⟨rfl, rfl⟩

/-- C8 (amended): the unified tracker's `main` satisfies the claim: for
every stdin parse outcome, every configuration, and every handler
behavior (including handlers that raise), the process exits with status
0 and prints exactly one JSON object on standard output. -/
theorem C8_unified_exit0_single_json (stdinParsed : Option Json) (config : Json)
    (h : HandlerOutcomes) :
    (unifiedMain stdinParsed config h).exitCode = 0 ∧
    (unifiedMain stdinParsed config h).stdoutLines.length = 1 := by
  unfold unifiedMain
  cases unifiedBody (stdinParsed.getD (Json.obj [])) config h with
  | ok r => exact ⟨rfl, rfl⟩
  | error e => exact ⟨rfl, rfl⟩

/-- C3: the claim says a span opened by the `PreToolUse` invocation is
found again by the later `PostToolUse` invocation (each in its own
process) and closed with the result payload.  Under the per-process
deployment, `main` constructs a fresh `ObservabilityTracker` each time,
so `active_spans` is empty in the `PostToolUse` process: the span
started and stored for `t1` in the first process is not found in the
second, no span is ended, and the event is only debug-logged as
`OrphanedPostToolUse`. -/
theorem C3_cross_process_span_lost :
    (handle_pre_tool_use trackEnv freshTracker preInput).map
      (fun r => (r.1.activeSpans.length, r.2.1.countP isSpanStart)) = .ok (1, 1) ∧
    (handle_tool_use trackEnv freshTracker postInput).map
      (fun r => (r.1.activeSpans.length, r.2.1.countP isSpanEnd,
                 r.2.1.countP (isDebugLog "OrphanedPostToolUse"))) = .ok (0, 0, 1) := by
  exact ⟨rfl, rfl⟩

/-- C4 (counterexample): the claim says a tool result whose correlation
identifier matches no recorded invocation is still recorded and
reported as an orphaned completion with a null start time.  In fact the
result is discarded on both code paths: `process_subagent_transcript`
skips a `tool_result` whose `tool_use_id` is not pending (returning an
empty tool-call list for a transcript holding only an orphan result),
and `handle_tool_use` on an unmatched id produces no record at all
(with debug mode off, its action trace is empty). -/
theorem C4_counterexample :
    (process_subagent_transcript "s" "a1" [some orphanResult] (Json.obj []) "T0").map
      (fun r => r.toolCalls) = .ok [] ∧
    (handle_tool_use trackEnvQuiet freshTracker postInput).map
      (fun r => r.2.1) = .ok [] := by
  exact ⟨rfl, rfl⟩

@[simp]
theorem py_bind_ok {α β : Type} (a : α) (f : α → Py β) :
    (Except.ok a >>= f : Py β) = f a := rfl

@[simp]
theorem py_bind_error {α β : Type} (e : String) (f : α → Py β) :
    ((Except.error e : Py α) >>= f : Py β) = .error e := rfl

@[simp]
theorem py_pure_eq_ok {α : Type} (a : α) : (pure a : Py α) = .ok a := rfl

theorem lookupField_setField_self (fs : List (String × Json)) (k : String) (v : Json) :
    lookupField (setField fs k v) k = some v := by
  induction fs with
  | nil => simp [setField, lookupField]
  | cons p rest ih =>
      obtain ⟨k', v'⟩ := p
      by_cases h : k' = k
      · simp [setField, lookupField, h]
      · simp [setField, lookupField, h, ih]

theorem lookupField_setField_ne (fs : List (String × Json)) (k q : String) (v : Json)
    (h : q ≠ k) :
    lookupField (setField fs k v) q = lookupField fs q := by
  induction fs with
  | nil => simp [setField, lookupField, Ne.symm h]
  | cons p rest ih =>
      obtain ⟨k', v'⟩ := p
      by_cases hk : k' = k
      · subst hk
        simp [setField, lookupField, Ne.symm h]
      · simp [setField, lookupField, hk, ih]

theorem mem_assocSet {α : Type} {m : List (Json × α)} {k : Json} {v : α} {q : Json × α}
    (h : q ∈ assocSet m k v) : q ∈ m ∨ q = (k, v) := by
  induction m with
  | nil => simpa [assocSet] using h
  | cons p rest ih =>
      by_cases hp : pyEq p.1 k
      · rcases (by simpa [assocSet, hp] using h : q = (k, v) ∨ q ∈ rest) with h1 | h1
        · exact Or.inr h1
        · exact Or.inl (List.mem_cons_of_mem _ h1)
      · rcases (by simpa [assocSet, hp] using h : q = p ∨ q ∈ assocSet rest k v) with h1 | h1
        · exact Or.inl (h1 ▸ List.mem_cons_self _ _)
        · rcases ih h1 with h2 | h2
          · exact Or.inl (List.mem_cons_of_mem _ h2)
          · exact Or.inr h2

theorem mem_assocDel {α : Type} {m : List (Json × α)} {k : Json} {q : Json × α}
    (h : q ∈ assocDel m k) : q ∈ m := by
  induction m with
  | nil => simp [assocDel] at h
  | cons p rest ih =>
      by_cases hp : pyEq p.1 k
      · exact List.mem_cons_of_mem _ (by simpa [assocDel, hp] using h)
      · rcases (by simpa [assocDel, hp] using h : q = p ∨ q ∈ assocDel rest k) with h1 | h1
        · exact h1 ▸ List.mem_cons_self _ _
        · exact List.mem_cons_of_mem _ (ih h1)

theorem foldlM_py_inv {α β : Type} (P : β → Prop) (f : β → α → Py β)
    (hf : ∀ b a b2, P b → f b a = .ok b2 → P b2) :
    ∀ (l : List α) (b b2 : β), P b → l.foldlM f b = .ok b2 → P b2 := by
  intro l
  induction l with
  | nil =>
      intro b b2 hb h
      simp only [List.foldlM_nil, py_pure_eq_ok, Except.ok.injEq] at h
      exact h ▸ hb
  | cons x xs ih =>
      intro b b2 hb h
      rw [List.foldlM_cons] at h
      cases hfx : f b x with
      | error e => rw [hfx] at h; simp at h
      | ok b1 =>
          rw [hfx, py_bind_ok] at h
          exact ih b1 b2 (hf b x b1 hb hfx) h

theorem pyGet_ok_shape {j : Json} {k : String} {v : Json} (h : pyGet j k = .ok v) :
    ∃ fs, j = .obj fs := by
  cases j <;> first
    | exact ⟨_, rfl⟩
    | simp [pyGet] at h

/-- Every value still pending in the `pending_tools` dict has a null
output: registrations store `output = None` and a matched entry is
removed when its output is filled in. -/
theorem subStep_pending_null (acc : List ToolCall × List (Json × ToolCall)) (msg : Json)
    (acc2 : List ToolCall × List (Json × ToolCall))
    (hP : ∀ q ∈ acc.2, q.2.output = Json.null)
    (h : subStep acc msg = .ok acc2) : ∀ q ∈ acc2.2, q.2.output = Json.null := by
  unfold subStep at h
  cases hr : msgRole msg with
  | error e => rw [hr] at h; simp at h
  | ok role =>
      rw [hr, py_bind_ok] at h
      by_cases hro : pyEq role (.str "assistant")
      · rw [if_pos hro] at h
        cases htus : get_tool_calls msg with
        | error e => rw [htus] at h; simp at h
        | ok tus =>
            rw [htus, py_bind_ok] at h
            refine foldlM_py_inv (fun b => ∀ q ∈ b.2, q.2.output = Json.null) _ ?_ tus acc acc2 hP h
            intro b a b2 hb hf
            cases h1 : pyGet a "id" with
            | error e => rw [h1] at hf; simp at hf
            | ok toolId =>
                rw [h1, py_bind_ok] at hf
                cases h2 : pyGet a "name" with
                | error e => rw [h2] at hf; simp at hf
                | ok nm =>
                    rw [h2, py_bind_ok] at hf
                    cases h3 : pyGet a "input" with
                    | error e => rw [h3] at hf; simp at hf
                    | ok inp =>
                        rw [h3, py_bind_ok] at hf
                        cases h4 : pyGet msg "timestamp" with
                        | error e => rw [h4] at hf; simp at hf
                        | ok ts =>
                            rw [h4, py_bind_ok] at hf
                            split at hf
                            · simp only [py_pure_eq_ok, Except.ok.injEq] at hf
                              subst hf
                              intro q hq
                              rcases mem_assocSet hq with hq2 | hq2
                              · exact hb q hq2
                              · rw [hq2]
                            · simp at hf
      · rw [if_neg hro] at h
        by_cases hru : pyEq role (.str "user")
        · rw [if_pos hru] at h
          cases htr : is_tool_result msg with
          | error e => rw [htr] at h; simp at h
          | ok tr =>
              rw [htr, py_bind_ok] at h
              by_cases htr2 : tr
              · rw [if_pos htr2] at h
                cases hc : get_content msg with
                | error e => rw [hc] at h; simp at h
                | ok content =>
                    rw [hc, py_bind_ok] at h
                    cases content with
                    | arr items =>
                        refine foldlM_py_inv (fun b => ∀ q ∈ b.2, q.2.output = Json.null)
                          _ ?_ items acc acc2 hP h
                        intro b a b2 hb hf
                        cases a with
                        | obj ifields =>
                            simp only at hf
                            split at hf
                            · split at hf
                              · split at hf
                                · simp only [py_pure_eq_ok, Except.ok.injEq] at hf
                                  subst hf
                                  intro q hq
                                  exact hb q (mem_assocDel hq)
                                · simp only [py_pure_eq_ok, Except.ok.injEq] at hf
                                  subst hf
                                  exact hb
                              · simp at hf
                            · simp only [py_pure_eq_ok, Except.ok.injEq] at hf
                              subst hf
                              exact hb
                        | null => simp only [py_pure_eq_ok, Except.ok.injEq] at hf; subst hf; exact hb
                        | bool b1 => simp only [py_pure_eq_ok, Except.ok.injEq] at hf; subst hf; exact hb
                        | num n => simp only [py_pure_eq_ok, Except.ok.injEq] at hf; subst hf; exact hb
                        | str s => simp only [py_pure_eq_ok, Except.ok.injEq] at hf; subst hf; exact hb
                        | arr l => simp only [py_pure_eq_ok, Except.ok.injEq] at hf; subst hf; exact hb
                    | _ =>
                        simp only [py_pure_eq_ok, Except.ok.injEq] at h
                        subst h
                        exact hP
              · rw [if_neg htr2] at h
                simp only [py_pure_eq_ok, Except.ok.injEq] at h
                subst h
                exact hP
        · rw [if_neg hru] at h
          simp only [py_pure_eq_ok, Except.ok.injEq] at h
          subst h
          exact hP

/-- C4 (amended): orphan handling is asymmetric.  Invocation-side
orphans are retained but unmarked: in subagent transcript processing
every invocation with no matching result stays in `pending_tools` with
a null output and (by lines 554-555 of the source, visible in
`process_subagent_transcript`) is appended to the returned tool-call
list, with no explicit orphan marker.  Result-side orphans are
discarded: `handle_tool_use` on a correlation id with no recorded
invocation ends no span, leaves `active_spans` unchanged, and only
writes an `OrphanedPostToolUse` debug entry when debug mode is on — the
result payload is not recorded or reported. -/
theorem C4_amended_orphan_asymmetry :
    (∀ (msgs : List Json) (r : List ToolCall × List (Json × ToolCall)),
        msgs.foldlM subStep ([], []) = .ok r → ∀ q ∈ r.2, q.2.output = Json.null) ∧
    (∀ (env : TrackerEnv) (t : Tracker) (hookInput : Json) (sid tid : Json)
        (t2 : Tracker) (acts : List TrackAction) (res : Json),
        pyGet hookInput "session_id" = .ok sid → truthy sid = true →
        pyGet hookInput "tool_use_id" = .ok tid → truthy tid = true →
        assocGet t.activeSpans tid = none →
        handle_tool_use env t hookInput = .ok (t2, acts, res) →
        acts.countP isSpanEnd = 0 ∧ t2.activeSpans = t.activeSpans ∧
          (env.debugMode = true → acts.any (isDebugLog "OrphanedPostToolUse") = true)) := by
  constructor
  · intro msgs r h
    exact foldlM_py_inv (fun b => ∀ q ∈ b.2, q.2.output = Json.null)
      subStep (fun b a b2 hb hf => subStep_pending_null b a b2 hb hf) msgs ([], [])
      r (by intro q hq; simp at hq) h
  · intro env t hookInput sid tid t2 acts res hsid htsid htid httid hspan h
    obtain ⟨fs, rfl⟩ := pyGet_ok_shape hsid
    unfold handle_tool_use at h
    rw [hsid, py_bind_ok, htsid] at h
    simp only [Bool.not_true, if_neg (by simp : ¬ (false = true))] at h
    rw [htid, py_bind_ok, httid] at h
    simp only [Bool.not_true, if_neg (by simp : ¬ (false = true))] at h
    rw [hspan] at h
    simp only [pyGet, py_bind_ok] at h
    split at h <;>
      · simp only [py_pure_eq_ok, Except.ok.injEq, Prod.mk.injEq] at h
        obtain ⟨ht2, hacts, -⟩ := h
        subst ht2
        refine ⟨?_, rfl, ?_⟩
        · rw [← hacts]
          cases hd : env.debugMode <;> simp [dbg, hd, isSpanEnd, List.countP] <;> rfl
        · intro hd
          rw [← hacts]
          simp [dbg, hd, isDebugLog]

/-- C4 (witness): the amended theorem applied to a concrete subagent
transcript holding one unmatched invocation (kept, with null output)
and to a concrete unmatched `PostToolUse` event (no span ended, spans
unchanged, orphan debug entry only). -/
theorem C4_amended_witness :
    pendingBash.output = Json.null ∧
    (([.debugLog "PostToolUse", .debugLog "OrphanedPostToolUse"] : List TrackAction).countP
        isSpanEnd = 0 ∧
      ({ freshTracker with toolSuccesses := 1 } : Tracker).activeSpans =
        freshTracker.activeSpans ∧
      (trackEnv.debugMode = true →
        ([.debugLog "PostToolUse", .debugLog "OrphanedPostToolUse"] :
          List TrackAction).any (isDebugLog "OrphanedPostToolUse") = true)) := by
  constructor
  · exact C4_amended_orphan_asymmetry.1 [toolUseMsg] ([], [(Json.str "t1", pendingBash)]) rfl
      (Json.str "t1", pendingBash) (List.mem_singleton.mpr rfl)
  · exact C4_amended_orphan_asymmetry.2 trackEnv freshTracker postInput (Json.str "s1")
      (Json.str "t1") { freshTracker with toolSuccesses := 1 }
      [.debugLog "PostToolUse", .debugLog "OrphanedPostToolUse"] successDict
      rfl rfl rfl rfl rfl rfl

/-- An assistant message whose extracted message id is falsy is always
treated as a continuation: it is appended to `current_assistant_parts`
with no merge, no emission, and no other state change. -/
theorem step_assistant_noid (sd : List (String × List ToolCall)) (s : GroupState)
    (m j : Json) (hr : msgRole m = .ok (.str "assistant"))
    (hid : assistantMsgId m = .ok j) (hj : truthy j = false) :
    step sd s m =
      .ok ({s with currentAssistantParts := s.currentAssistantParts ++ [m]}, []) := by
  unfold step
  rw [hr, py_bind_ok]
  rw [if_neg (by decide : ¬ (pyEq (Json.str "assistant") (Json.str "user") = true))]
  rw [if_pos (by decide : pyEq (Json.str "assistant") (Json.str "assistant") = true)]
  rw [hid, py_bind_ok, hj]
  rfl

/-- A plain (non-tool-result) user message performs exactly the
end-of-log finalization followed by the new-turn reset. -/
theorem step_user_flush (sd : List (String × List ToolCall)) (s : GroupState) (m : Json)
    (hr : msgRole m = .ok (.str "user")) (htr : is_tool_result m = .ok false) :
    step sd s m = (finalizePass s).map (fun p =>
      ({p.1 with currentUser := m, currentAssistants := [], currentAssistantParts := [],
                 currentMsgId := .null, currentToolResults := []}, p.2)) := by
  unfold step finalizePass
  rw [hr, py_bind_ok]
  rw [if_pos (by decide : pyEq (Json.str "user") (Json.str "user") = true)]
  rw [htr, py_bind_ok]
  rw [if_neg (by simp : ¬ (false = true))]
  by_cases hm : truthy s.currentMsgId && !s.currentAssistantParts.isEmpty
  · rw [if_pos hm, if_pos hm]
    cases hmg : merge_assistant_parts s.currentAssistantParts with
    | error e => rfl
    | ok merged =>
        simp only [py_bind_ok]
        by_cases he : truthy s.currentUser && !(s.currentAssistants ++ [merged]).isEmpty
        · simp [he, Except.map]
        · simp [he, Except.map]
  · rw [if_neg hm, if_neg hm]
    simp only [py_pure_eq_ok, py_bind_ok]
    by_cases he : truthy s.currentUser && !s.currentAssistants.isEmpty
    · simp [he, Except.map]
    · simp [he, Except.map]

/-- C9: in the grouping loop, assistant fragments merge into the turn's
response only under a truthy in-flight message id.  For a run of
assistant messages none of which carries a truthy message id, starting
from a state with no in-flight id: the run only accumulates the
fragments in `current_assistant_parts`, and (when no assistant response
has been merged) the accumulated fragments are discarded at
finalization — both at end-of-log, which emits nothing, and on the next
plain user message, which resets the parts without emitting — so a turn
whose assistant content consists solely of id-less fragments is never
emitted. -/
theorem C9_idless_fragments_never_emitted (sd : List (String × List ToolCall))
    (s : GroupState) (ys : List Json) (hM : s.currentMsgId = Json.null)
    (hys : ∀ m ∈ ys, msgRole m = .ok (.str "assistant") ∧
        ∃ j, assistantMsgId m = .ok j ∧ truthy j = false) :
    runLoopP sd s ys =
      ({s with currentAssistantParts := s.currentAssistantParts ++ ys}, [], false) ∧
    (s.currentAssistants = [] →
      (finalizePass {s with currentAssistantParts := s.currentAssistantParts ++ ys} =
        .ok ({s with currentAssistantParts := s.currentAssistantParts ++ ys}, [])) ∧
      (∀ u, msgRole u = .ok (.str "user") → is_tool_result u = .ok false →
        step sd {s with currentAssistantParts := s.currentAssistantParts ++ ys} u =
          .ok ({s with currentUser := u,
                       currentAssistants := [],
                       currentAssistantParts := [],
                       currentMsgId := .null,
                       currentToolResults := []}, []))) := by
  have hloop : ∀ (ys : List Json) (s : GroupState),
      (∀ m ∈ ys, msgRole m = .ok (.str "assistant") ∧
        ∃ j, assistantMsgId m = .ok j ∧ truthy j = false) →
      runLoopP sd s ys =
        ({s with currentAssistantParts := s.currentAssistantParts ++ ys}, [], false) := by
    intro ys
    induction ys with
    | nil => intro s _; simp [runLoopP]
    | cons m ms ih =>
        intro s hy
        obtain ⟨hr, j, hid, hj⟩ := hy m (List.mem_cons_self _ _)
        have hstep := step_assistant_noid sd s m j hr hid hj
        simp only [runLoopP, hstep]
        rw [ih _ (fun x hx => hy x (List.mem_cons_of_mem _ hx))]
        simp [List.append_assoc]
  refine ⟨hloop ys s hys, ?_⟩
  intro hA
  constructor
  · unfold finalizePass
    rw [if_neg (by simp [hM, truthy])]
    simp only [py_pure_eq_ok, py_bind_ok]
    rw [if_neg (by simp [hA])]
  · intro u hru htru
    rw [step_user_flush sd _ u hru htru]
    unfold finalizePass
    rw [if_neg (by simp [hM, truthy])]
    simp only [py_pure_eq_ok, py_bind_ok]
    rw [if_neg (by simp [hA])]
    simp [Except.map]

/-- C9 (witness): the theorem applied to the run `[idlessMsg]` from the
initial state — the fragment is only accumulated, and a following plain
user message discards it without emitting a turn. -/
theorem C9_witness :
    runLoopP [] (initState 0) [idlessMsg] =
      ({initState 0 with currentAssistantParts := [idlessMsg]}, [], false) ∧
    step [] {initState 0 with currentAssistantParts := [idlessMsg]} uMsg =
      .ok ({initState 0 with currentUser := uMsg}, []) := by
  have h := C9_idless_fragments_never_emitted [] (initState 0) [idlessMsg] rfl
    (by
      intro m hm
      rw [List.mem_singleton] at hm
      subst hm
      exact ⟨rfl, Json.null, rfl, rfl⟩)
  refine ⟨?_, ?_⟩
  · simpa using h.1
  · have h2 := (h.2 rfl).2 uMsg rfl rfl
    simpa using h2

theorem pyGetD_ok_shape {j : Json} {k : String} {d v : Json} (h : pyGetD j k d = .ok v) :
    ∃ fs, j = .obj fs := by
  cases j <;> first
    | exact ⟨_, rfl⟩
    | simp [pyGetD] at h

/-- The three successful control paths of `process_transcript`: early
return on a cursor at or past the end, return on no valid new message,
or the full path whose state update rewrites exactly the session's own
entry. -/
theorem process_transcript_cases (sd : List (String × List ToolCall)) (sid : String)
    (lines : List (Option Json)) (state : Json) (now : String) (r : ProcResult)
    (h : process_transcript sd sid lines state now = .ok r) :
    (∃ ss lastJ, pyGetD state sid (.obj []) = .ok ss ∧
       pyGetD ss "last_line" (.num 0) = .ok lastJ ∧
       pyCmpGeInt lastJ lines.length = .ok true ∧ r = ⟨0, [], state, false⟩) ∨
    (∃ ss lastJ lastI, pyGetD state sid (.obj []) = .ok ss ∧
       pyGetD ss "last_line" (.num 0) = .ok lastJ ∧
       pyCmpGeInt lastJ lines.length = .ok false ∧ jsonToInt lastJ = .ok lastI ∧
       parseNewMessages lines lastI = .ok [] ∧ r = ⟨0, [], state, false⟩) ∨
    (∃ sfs tc, state = Json.obj sfs ∧ r.saved = true ∧
       r.newState = Json.obj (setField sfs sid (.obj
         [("last_line", .num lines.length), ("turn_count", .num (tc + (r.turns : Nat))),
          ("updated", .str now)]))) := by
  unfold process_transcript at h
  simp only [] at h
  cases h1 : pyGetD state sid (.obj []) with
  | error e => rw [h1] at h; simp at h
  | ok ss =>
  obtain ⟨sfs, rfl⟩ := pyGetD_ok_shape h1
  rw [h1, py_bind_ok] at h
  cases h2 : pyGetD ss "last_line" (.num 0) with
  | error e => rw [h2] at h; simp at h
  | ok lastJ =>
  rw [h2, py_bind_ok] at h
  cases h3 : pyGetD ss "turn_count" (.num 0) with
  | error e => rw [h3] at h; simp at h
  | ok tcJ =>
  rw [h3, py_bind_ok] at h
  cases h4 : pyCmpGeInt lastJ lines.length with
  | error e => rw [h4] at h; simp at h
  | ok ge =>
  rw [h4, py_bind_ok] at h
  by_cases hge : ge = true
  · subst hge
    rw [if_pos rfl] at h
    simp only [py_pure_eq_ok, Except.ok.injEq] at h
    exact Or.inl ⟨ss, lastJ, rfl, h2, h4, h.symm⟩
  · rw [if_neg hge] at h
    rw [Bool.not_eq_true] at hge
    subst hge
    cases h5 : jsonToInt lastJ with
    | error e => rw [h5] at h; simp at h
    | ok lastI =>
    rw [h5, py_bind_ok] at h
    cases h6 : parseNewMessages lines lastI with
    | error e => rw [h6] at h; simp at h
    | ok msgs =>
    rw [h6, py_bind_ok] at h
    by_cases hemp : msgs.isEmpty = true
    · rw [if_pos hemp] at h
      simp only [py_pure_eq_ok, Except.ok.injEq] at h
      rw [List.isEmpty_iff] at hemp
      subst hemp
      exact Or.inr (Or.inl ⟨ss, lastJ, lastI, rfl, h2, h4, h5, h6, h.symm⟩)
    · rw [if_neg hemp] at h
      cases h7 : jsonToInt tcJ with
      | error e => rw [h7] at h; simp at h
      | ok tc =>
      rw [h7, py_bind_ok] at h
      by_cases hcr : (groupPass sd tc msgs).2.2 = true
      · rw [if_pos hcr] at h; simp at h
      · rw [if_neg hcr] at h
        simp only [py_pure_eq_ok, Except.ok.injEq] at h
        refine Or.inr (Or.inr ⟨sfs, tc, rfl, ?_, ?_⟩)
        · rw [← h]
        · rw [← h]

/-- The two successful control paths of `process_subagent_transcript`:
an empty early return, or the full path whose state update rewrites
exactly the subagent's own entry. -/
theorem process_subagent_cases (sid aid : String) (lines : List (Option Json))
    (state : Json) (now : String) (r : SubResult)
    (h : process_subagent_transcript sid aid lines state now = .ok r) :
    (r = ⟨[], state, false⟩) ∨
    (∃ sfs, state = Json.obj sfs ∧ r.saved = true ∧
       r.newState = Json.obj (setField sfs (sid ++ "/agent-" ++ aid) (.obj
         [("last_line", .num lines.length), ("tool_count", .num r.toolCalls.length),
          ("updated", .str now)]))) := by
  unfold process_subagent_transcript at h
  simp only [] at h
  cases h1 : pyGetD state (sid ++ "/agent-" ++ aid) (.obj []) with
  | error e => rw [h1] at h; simp at h
  | ok ss =>
  obtain ⟨sfs, rfl⟩ := pyGetD_ok_shape h1
  rw [h1, py_bind_ok] at h
  cases h2 : pyGetD ss "last_line" (.num 0) with
  | error e => rw [h2] at h; simp at h
  | ok lastJ =>
  rw [h2, py_bind_ok] at h
  cases h4 : pyCmpGeInt lastJ lines.length with
  | error e => rw [h4] at h; simp at h
  | ok ge =>
  rw [h4, py_bind_ok] at h
  by_cases hge : ge = true
  · subst hge
    rw [if_pos rfl] at h
    simp only [py_pure_eq_ok, Except.ok.injEq] at h
    exact Or.inl h.symm
  · rw [if_neg hge] at h
    cases h5 : jsonToInt lastJ with
    | error e => rw [h5] at h; simp at h
    | ok lastI =>
    rw [h5, py_bind_ok] at h
    cases h6 : parseNewMessages lines lastI with
    | error e => rw [h6] at h; simp at h
    | ok msgs =>
    rw [h6, py_bind_ok] at h
    by_cases hemp : msgs.isEmpty = true
    · rw [if_pos hemp] at h
      simp only [py_pure_eq_ok, Except.ok.injEq] at h
      exact Or.inl h.symm
    · rw [if_neg hemp] at h
      cases h7 : msgs.foldlM subStep ([], []) with
      | error e => rw [h7] at h; simp at h
      | ok p =>
      rw [h7, py_bind_ok] at h
      simp only [py_pure_eq_ok, Except.ok.injEq] at h
      refine Or.inr ⟨sfs, rfl, ?_, ?_⟩
      · rw [← h]
      · rw [← h]

/-- C10: one `process_transcript` invocation for session `sid` rewrites
only the state mapping's entry for key `sid`, and one
`process_subagent_transcript` invocation rewrites only the entry for
key `"sid/agent-aid"`; every other key's entry in the loaded state is
carried into the saved mapping unchanged (`save_state` then writes that
mapping verbatim). -/
theorem C10_state_frame :
    (∀ sd sid lines state now r k, process_transcript sd sid lines state now = .ok r →
        k ≠ sid → jLookup r.newState k = jLookup state k) ∧
    (∀ sid aid lines state now r k, process_subagent_transcript sid aid lines state now = .ok r →
        k ≠ sid ++ "/agent-" ++ aid → jLookup r.newState k = jLookup state k) := by
  constructor
  · intro sd sid lines state now r k h hk
    rcases process_transcript_cases sd sid lines state now r h with
      ⟨ss, lastJ, -, -, -, hr⟩ | ⟨ss, lastJ, lastI, -, -, -, -, -, hr⟩ | ⟨sfs, tc, rfl, -, hn⟩
    · rw [hr]
    · rw [hr]
    · rw [hn]
      simp [jLookup, lookupField_setField_ne _ _ _ _ hk]
  · intro sid aid lines state now r k h hk
    rcases process_subagent_cases sid aid lines state now r h with
      hr | ⟨sfs, rfl, -, hn⟩
    · rw [hr]
    · rw [hn]
      simp [jLookup, lookupField_setField_ne _ _ _ _ hk]

/-- C6: an incremental pass whose stored offset is at or beyond the log
file's line count returns an empty result and never raises — for the
main transcript (zero turns, nothing emitted, state untouched, no save)
and for a subagent transcript (zero tool calls) alike; and re-running
any successful main pass on the unchanged log with its saved state
emits zero additional turns. -/
theorem C6_cursor_beyond_end_noop :
    (∀ sd sid lines sfs ssfs n now,
        (lookupField sfs sid).getD (.obj []) = Json.obj ssfs →
        (lookupField ssfs "last_line").getD (.num 0) = Json.num n →
        (lines.length : Int) ≤ n →
        process_transcript sd sid lines (.obj sfs) now = .ok ⟨0, [], .obj sfs, false⟩) ∧
    (∀ sid aid lines sfs ssfs n now,
        (lookupField sfs (sid ++ "/agent-" ++ aid)).getD (.obj []) = Json.obj ssfs →
        (lookupField ssfs "last_line").getD (.num 0) = Json.num n →
        (lines.length : Int) ≤ n →
        process_subagent_transcript sid aid lines (.obj sfs) now = .ok ⟨[], .obj sfs, false⟩) ∧
    (∀ sd sid lines state now now2 r,
        process_transcript sd sid lines state now = .ok r →
        process_transcript sd sid lines r.newState now2 = .ok ⟨0, [], r.newState, false⟩) := by
  refine ⟨?_, ?_, ?_⟩
  · intro sd sid lines sfs ssfs n now h1 h2 hn
    unfold process_transcript
    simp only [pyGetD, h1, py_bind_ok, h2, pyCmpGeInt]
    rw [if_pos (by simpa using hn)]
    rfl
  · intro sid aid lines sfs ssfs n now h1 h2 hn
    unfold process_subagent_transcript
    simp only [pyGetD, h1, py_bind_ok, h2, pyCmpGeInt]
    rw [if_pos (by simpa using hn)]
    rfl
  · intro sd sid lines state now now2 r h
    rcases process_transcript_cases sd sid lines state now r h with
      ⟨ss, lastJ, h1, h2, h4, hr⟩ | ⟨ss, lastJ, lastI, h1, h2, h4, h5, h6, hr⟩ |
      ⟨sfs, tc, rfl, -, hn⟩
    · subst hr
      unfold process_transcript
      simp only []
      rw [h1, py_bind_ok, h2, py_bind_ok]
      cases h3 : pyGetD ss "turn_count" (.num 0) with
      | error e =>
          exfalso
          obtain ⟨fs2, rfl⟩ := pyGetD_ok_shape h2
          simp [pyGetD] at h3
      | ok tcJ =>
          rw [py_bind_ok, h4, py_bind_ok, if_pos rfl]
          rfl
    · subst hr
      unfold process_transcript
      simp only []
      rw [h1, py_bind_ok, h2, py_bind_ok]
      cases h3 : pyGetD ss "turn_count" (.num 0) with
      | error e =>
          exfalso
          obtain ⟨fs2, rfl⟩ := pyGetD_ok_shape h2
          simp [pyGetD] at h3
      | ok tcJ =>
          rw [py_bind_ok, h4, py_bind_ok, if_neg (by simp), h5, py_bind_ok,
             h6, py_bind_ok]
          rfl
    · rw [hn]
      unfold process_transcript
      simp [pyGetD, lookupField_setField_self, lookupField, pyCmpGeInt]

/-- C2 (amended): at end-of-log the open turn is finalized exactly when
the current user message is truthy and, after merging any pending
in-flight parts, at least one merged assistant response exists; a turn
with a user input but no merged assistant response is not emitted.
Such a turn is also not re-entered on the next incremental pass: every
saving pass advances the session's cursor entry to the file's total
line count, so the open turn's lines are never read again (the
counterexample shows the turn is then lost for good). -/
theorem C2_amended_endoflog :
    (∀ s s2 out, finalizePass s = .ok (s2, out) →
      ((out = [] ∨ out.length = 1) ∧
       (out.length = 1 ↔ (truthy s.currentUser = true ∧ s2.currentAssistants ≠ [])))) ∧
    (∀ sd sid lines state now r, process_transcript sd sid lines state now = .ok r →
      r.saved = true →
      ∃ tcv, jLookup r.newState sid = some (Json.obj
        [("last_line", .num lines.length), ("turn_count", tcv), ("updated", .str now)])) := by
  constructor
  · intro s s2 out h
    unfold finalizePass at h
    by_cases hm : (truthy s.currentMsgId && !s.currentAssistantParts.isEmpty) = true
    · rw [if_pos hm] at h
      cases hmg : merge_assistant_parts s.currentAssistantParts with
      | error e => rw [hmg] at h; simp at h
      | ok merged =>
          rw [hmg] at h
          simp only [py_bind_ok, py_pure_eq_ok] at h
          by_cases he : (truthy s.currentUser && !(s.currentAssistants ++ [merged]).isEmpty) = true
          · rw [if_pos he] at h
            simp only [py_pure_eq_ok, Except.ok.injEq, Prod.mk.injEq] at h
            obtain ⟨hs2, hout⟩ := h
            subst hs2
            subst hout
            rw [Bool.and_eq_true] at he
            refine ⟨Or.inr rfl, ?_⟩
            refine ⟨fun _ => ⟨he.1, by simp⟩, fun _ => rfl⟩
          · rw [if_neg he] at h
            simp only [py_pure_eq_ok, Except.ok.injEq, Prod.mk.injEq] at h
            obtain ⟨hs2, hout⟩ := h
            subst hs2
            subst hout
            refine ⟨Or.inl rfl, ?_⟩
            constructor
            · intro h01; simp at h01
            · rintro ⟨hu, -⟩
              rw [Bool.and_eq_true] at he
              exact absurd ⟨hu, by simp⟩ he
    · rw [if_neg hm] at h
      simp only [py_pure_eq_ok, py_bind_ok] at h
      by_cases he : (truthy s.currentUser && !s.currentAssistants.isEmpty) = true
      · rw [if_pos he] at h
        simp only [py_pure_eq_ok, Except.ok.injEq, Prod.mk.injEq] at h
        obtain ⟨hs2, hout⟩ := h
        subst hs2
        subst hout
        rw [Bool.and_eq_true] at he
        refine ⟨Or.inr rfl, ?_⟩
        refine ⟨fun _ => ⟨he.1, ?_⟩, fun _ => rfl⟩
        simpa [List.isEmpty_iff] using he.2
      · rw [if_neg he] at h
        simp only [py_pure_eq_ok, Except.ok.injEq, Prod.mk.injEq] at h
        obtain ⟨hs2, hout⟩ := h
        subst hs2
        subst hout
        refine ⟨Or.inl rfl, ?_⟩
        constructor
        · intro h01; simp at h01
        · rintro ⟨hu, hne⟩
          rw [Bool.and_eq_true] at he
          refine absurd ⟨hu, ?_⟩ he
          simpa [List.isEmpty_iff] using hne
  · intro sd sid lines state now r h hsave
    rcases process_transcript_cases sd sid lines state now r h with
      ⟨ss, lastJ, -, -, -, hr⟩ | ⟨ss, lastJ, lastI, -, -, -, -, -, hr⟩ | ⟨sfs, tc, rfl, -, hn⟩
    · rw [hr] at hsave; simp at hsave
    · rw [hr] at hsave; simp at hsave
    · exact ⟨.num (tc + (r.turns : Nat)), by rw [hn]; simp [jLookup, lookupField_setField_self]⟩

/-- C2 (witness): the amended theorem applied to a state holding a
complete open turn (user plus one pending assistant part under an
in-flight id), which end-of-log finalization emits, and to the concrete
first pass over `[uMsg]`, whose saved cursor advances to line 1. -/
theorem C2_amended_witness :
    (([finTurn] = ([] : List Turn) ∨ [finTurn].length = 1) ∧
      ([finTurn].length = 1 ↔
        (truthy openTurnState.currentUser = true ∧ finalizedState.currentAssistants ≠ []))) ∧
    (∃ tcv, jLookup state1 "s" = some (Json.obj
      [("last_line", .num 1), ("turn_count", tcv), ("updated", .str "T0")])) := by
  constructor
  · exact C2_amended_endoflog.1 openTurnState finalizedState [finTurn] (by rfl)
  · have h := C2_amended_endoflog.2 [] "s" [some uMsg] (Json.obj []) "T0"
      ⟨0, [], state1, true⟩ rfl rfl
    simpa using h

/-- C10 (witness): the frame theorem applied to a concrete pass for
session `s` over a state holding an unrelated entry `other`, which is
carried over unchanged. -/
theorem C10_witness :
    jLookup otherState2 "other" = jLookup otherState "other" := by
  have h := C10_state_frame.1 [] "s" [some uMsg] otherState "T0"
    ⟨0, [], otherState2, true⟩ "other" rfl (by decide)
  simpa using h

/-- C6 (witness): the theorem applied to concrete logs: a one-line main
transcript and a one-line subagent transcript with stored offset 5, and
a re-run of the concrete first pass over `[uMsg]` with its saved state. -/
theorem C6_witness :
    process_transcript [] "s" [some uMsg]
      (.obj [("s", .obj [("last_line", .num 5)])]) "T0" =
      .ok ⟨0, [], .obj [("s", .obj [("last_line", .num 5)])], false⟩ ∧
    process_subagent_transcript "s" "a1" [some toolUseMsg]
      (.obj [("s/agent-a1", .obj [("last_line", .num 5)])]) "T0" =
      .ok ⟨[], .obj [("s/agent-a1", .obj [("last_line", .num 5)])], false⟩ ∧
    process_transcript [] "s" [some uMsg] state1 "T1" = .ok ⟨0, [], state1, false⟩ := by
  refine ⟨?_, ?_, ?_⟩
  · exact C6_cursor_beyond_end_noop.1 [] "s" [some uMsg] _ [("last_line", Json.num 5)] 5
      "T0" rfl rfl (by decide)
  · exact C6_cursor_beyond_end_noop.2.1 "s" "a1" [some toolUseMsg] _
      [("last_line", Json.num 5)] 5 "T0" rfl rfl (by decide)
  · have h := C6_cursor_beyond_end_noop.2.2 [] "s" [some uMsg] (Json.obj []) "T0" "T1"
      ⟨0, [], state1, true⟩ rfl
    simpa using h

theorem py_bind_def {α β : Type} (x : Py α) (f : α → Py β) :
    (x >>= f) = match x with | .ok a => f a | .error e => .error e := by
  cases x <;> rfl

/-- One grouping step never changes `turn_count`, and either emits
nothing and keeps `turns`, or emits exactly one turn numbered
`turn_count + turns + 1` while incrementing `turns`. -/
theorem step_numbering (sd : List (String × List ToolCall)) (s : GroupState) (m : Json)
    (s2 : GroupState) (out : List Turn) (h : step sd s m = .ok (s2, out)) :
    s2.turnCount = s.turnCount ∧
    ((out = [] ∧ s2.turns = s.turns) ∨
      (out.length = 1 ∧ s2.turns = s.turns + 1 ∧
        out.map Turn.turnNum = [s.turnCount + (s.turns : Int) + 1])) := by
  have finish0 : ∀ (X : GroupState) (O : List Turn),
      (Except.ok (X, O) : Py (GroupState × List Turn)) = .ok (s2, out) →
      X.turnCount = s.turnCount → O = [] → X.turns = s.turns →
      s2.turnCount = s.turnCount ∧
      ((out = [] ∧ s2.turns = s.turns) ∨
        (out.length = 1 ∧ s2.turns = s.turns + 1 ∧
          out.map Turn.turnNum = [s.turnCount + (s.turns : Int) + 1])) := by
    intro X O hXO hX hO hT
    simp only [Except.ok.injEq, Prod.mk.injEq] at hXO
    obtain ⟨h1, h2⟩ := hXO
    subst h1
    subst h2
    subst hO
    exact ⟨hX, Or.inl ⟨rfl, hT⟩⟩
  unfold step at h
  cases hr : msgRole m with
  | error e => rw [hr] at h; exact Except.noConfusion h
  | ok role =>
  rw [hr, py_bind_ok] at h
  by_cases hu : pyEq role (.str "user") = true
  · rw [if_pos hu] at h
    cases htr : is_tool_result m with
    | error e => rw [htr] at h; exact Except.noConfusion h
    | ok tr =>
    rw [htr, py_bind_ok] at h
    by_cases ht2 : tr = true
    · rw [if_pos ht2] at h
      simp only [py_bind_def, py_pure_eq_ok] at h
      repeat split at h
      all_goals
        first
          | exact Except.noConfusion h
          | exact finish0 _ _ h rfl rfl rfl
    · rw [if_neg ht2] at h
      by_cases hmm : (truthy s.currentMsgId && !s.currentAssistantParts.isEmpty) = true
      · rw [if_pos hmm] at h
        cases hmg : merge_assistant_parts s.currentAssistantParts with
        | error e => rw [hmg] at h; exact Except.noConfusion h
        | ok merged =>
        rw [hmg] at h
        simp only [py_bind_ok, py_pure_eq_ok] at h
        by_cases he : (truthy s.currentUser && !(s.currentAssistants ++ [merged]).isEmpty) = true
        · rw [if_pos he] at h
          simp only [Except.ok.injEq, Prod.mk.injEq] at h
          obtain ⟨h1, h2⟩ := h
          subst h1
          subst h2
          refine ⟨rfl, Or.inr ⟨rfl, rfl, ?_⟩⟩
          simp only [List.map_cons, List.map_nil, List.cons.injEq, and_true]
          push_cast
          ring
        · rw [if_neg he] at h
          exact finish0 _ _ h rfl rfl rfl
      · rw [if_neg hmm] at h
        simp only [py_pure_eq_ok, py_bind_ok] at h
        by_cases he : (truthy s.currentUser && !s.currentAssistants.isEmpty) = true
        · rw [if_pos he] at h
          simp only [Except.ok.injEq, Prod.mk.injEq] at h
          obtain ⟨h1, h2⟩ := h
          subst h1
          subst h2
          refine ⟨rfl, Or.inr ⟨rfl, rfl, ?_⟩⟩
          simp only [List.map_cons, List.map_nil, List.cons.injEq, and_true]
          push_cast
          ring
        · rw [if_neg he] at h
          exact finish0 _ _ h rfl rfl rfl
  · rw [if_neg hu] at h
    by_cases ha : pyEq role (.str "assistant") = true
    · rw [if_pos ha] at h
      cases hid : assistantMsgId m with
      | error e => rw [hid] at h; exact Except.noConfusion h
      | ok msgId =>
      rw [hid, py_bind_ok] at h
      by_cases hj : truthy msgId = true
      · rw [hj] at h
        simp only [Bool.not_true, Bool.false_eq_true, if_false] at h
        by_cases hsame : pyEq msgId s.currentMsgId = true
        · rw [if_pos hsame] at h
          exact finish0 _ _ h rfl rfl rfl
        · rw [if_neg hsame] at h
          by_cases hmm : (truthy s.currentMsgId && !s.currentAssistantParts.isEmpty) = true
          · rw [if_pos hmm] at h
            cases hmg : merge_assistant_parts s.currentAssistantParts with
            | error e => rw [hmg] at h; exact Except.noConfusion h
            | ok merged =>
            rw [hmg] at h
            simp only [py_bind_ok, py_pure_eq_ok] at h
            exact finish0 _ _ h rfl rfl rfl
          · rw [if_neg hmm] at h
            simp only [py_pure_eq_ok, py_bind_ok] at h
            exact finish0 _ _ h rfl rfl rfl
      · rw [Bool.not_eq_true] at hj
        rw [hj] at h
        simp only [Bool.not_false, if_true] at h
        exact finish0 _ _ h rfl rfl rfl
    · rw [if_neg ha] at h
      exact finish0 _ _ h rfl rfl rfl

/-- End-of-log finalization never changes `turn_count` and either
emits nothing or emits one turn numbered `turn_count + turns + 1`. -/
theorem finalize_numbering (s s2 : GroupState) (out : List Turn)
    (h : finalizePass s = .ok (s2, out)) :
    s2.turnCount = s.turnCount ∧
    ((out = [] ∧ s2.turns = s.turns) ∨
      (out.length = 1 ∧ s2.turns = s.turns + 1 ∧
        out.map Turn.turnNum = [s.turnCount + (s.turns : Int) + 1])) := by
  unfold finalizePass at h
  by_cases hmm : (truthy s.currentMsgId && !s.currentAssistantParts.isEmpty) = true
  · rw [if_pos hmm] at h
    cases hmg : merge_assistant_parts s.currentAssistantParts with
    | error e => rw [hmg] at h; exact Except.noConfusion h
    | ok merged =>
    rw [hmg] at h
    simp only [py_bind_ok, py_pure_eq_ok] at h
    by_cases he : (truthy s.currentUser && !(s.currentAssistants ++ [merged]).isEmpty) = true
    · rw [if_pos he] at h
      simp only [Except.ok.injEq, Prod.mk.injEq] at h
      obtain ⟨h1, h2⟩ := h
      subst h1
      subst h2
      refine ⟨rfl, Or.inr ⟨rfl, rfl, ?_⟩⟩
      simp only [List.map_cons, List.map_nil, List.cons.injEq, and_true]
      push_cast
      ring
    · rw [if_neg he] at h
      simp only [Except.ok.injEq, Prod.mk.injEq] at h
      obtain ⟨h1, h2⟩ := h
      subst h1
      subst h2
      exact ⟨rfl, Or.inl ⟨rfl, rfl⟩⟩
  · rw [if_neg hmm] at h
    simp only [py_pure_eq_ok, py_bind_ok] at h
    by_cases he : (truthy s.currentUser && !s.currentAssistants.isEmpty) = true
    · rw [if_pos he] at h
      simp only [Except.ok.injEq, Prod.mk.injEq] at h
      obtain ⟨h1, h2⟩ := h
      subst h1
      subst h2
      refine ⟨rfl, Or.inr ⟨rfl, rfl, ?_⟩⟩
      simp only [List.map_cons, List.map_nil, List.cons.injEq, and_true]
      push_cast
      ring
    · rw [if_neg he] at h
      simp only [Except.ok.injEq, Prod.mk.injEq] at h
      obtain ⟨h1, h2⟩ := h
      subst h1
      subst h2
      exact ⟨rfl, Or.inl ⟨rfl, rfl⟩⟩

theorem consecInts_succ (a : Int) (n : Nat) :
    consecInts a (n + 1) = a :: consecInts (a + 1) n := by
  unfold consecInts
  rw [List.range_succ_eq_map]
  simp only [List.map_cons, Nat.cast_zero, add_zero, List.map_map]
  refine congrArg _ ?_
  apply List.map_congr_left
  intro i _
  simp only [Function.comp_apply]
  push_cast
  ring

theorem consecInts_snoc (a : Int) (n : Nat) :
    consecInts a n ++ [a + (n : Int)] = consecInts a (n + 1) := by
  unfold consecInts
  rw [List.range_succ]
  simp

theorem consecInts_append (a : Int) (m n : Nat) :
    consecInts a m ++ consecInts (a + (m : Int)) n = consecInts a (m + n) := by
  unfold consecInts
  rw [List.range_add]
  rw [List.map_append, List.map_map]
  refine congrArg _ ?_
  apply List.map_congr_left
  intro i _
  simp only [Function.comp_apply]
  push_cast
  ring

/-- Over any message list, the loop emits turns numbered consecutively
from `turn_count + turns + 1`, with `turns` advanced by the number of
emissions and `turn_count` untouched. -/
theorem runLoopP_numbering (sd : List (String × List ToolCall)) :
    ∀ (msgs : List Json) (s : GroupState),
    (runLoopP sd s msgs).1.turnCount = s.turnCount ∧
    (runLoopP sd s msgs).1.turns = s.turns + (runLoopP sd s msgs).2.1.length ∧
    (runLoopP sd s msgs).2.1.map Turn.turnNum =
      consecInts (s.turnCount + (s.turns : Int) + 1) (runLoopP sd s msgs).2.1.length := by
  intro msgs
  induction msgs with
  | nil => intro s; simp [runLoopP, consecInts]
  | cons m ms ih =>
      intro s
      simp only [runLoopP]
      cases hstep : step sd s m with
      | error e => simp [consecInts]
      | ok p =>
          obtain ⟨s1, o⟩ := p
          obtain ⟨hTC, hor⟩ := step_numbering sd s m s1 o hstep
          obtain ⟨ih1, ih2, ih3⟩ := ih s1
          rcases hor with ⟨ho, ht⟩ | ⟨hlen, ht, hmap⟩
          · subst ho
            simp only [List.nil_append]
            refine ⟨hTC ▸ ih1, ?_, ?_⟩
            · rw [ih2, ht]
            · rw [ih3, hTC, ht]
          · rcases o with - | ⟨t, o'⟩
            · simp at hlen
            · rcases o' with - | ⟨t2, o''⟩
              · simp only [List.map_cons, List.map_nil, List.cons.injEq, and_true] at hmap
                simp only [List.cons_append, List.nil_append, List.length_cons,
                  List.map_cons]
                refine ⟨hTC ▸ ih1, ?_, ?_⟩
                · rw [ih2, ht]
                  omega
                · rw [ih3, hTC, ht, hmap, consecInts_succ]
                  congr 1
                  congr 1
                  push_cast
                  ring
              · simp at hlen

/-- A whole pass that does not raise finalizes `turns` = (number of
emitted turns) many turns, numbered consecutively from `tc + 1`. -/
theorem groupPass_numbering (sd : List (String × List ToolCall)) (tc : Int)
    (msgs : List Json) (hok : (groupPass sd tc msgs).2.2 = false) :
    ((groupPass sd tc msgs).2.1 : Nat) = (groupPass sd tc msgs).1.length ∧
    (groupPass sd tc msgs).1.map Turn.turnNum =
      consecInts (tc + 1) (groupPass sd tc msgs).1.length := by
  have hnum := runLoopP_numbering sd msgs (initState tc)
  obtain ⟨h1, h2, h3⟩ := hnum
  have e1 : (initState tc).turnCount = tc := rfl
  have e2 : (initState tc).turns = 0 := rfl
  rw [e1] at h1 h3
  rw [e2] at h2 h3
  rw [zero_add] at h2
  rw [Nat.cast_zero, add_zero] at h3
  unfold groupPass at hok ⊢
  by_cases hcr : (runLoopP sd (initState tc) msgs).2.2 = true
  · rw [if_pos hcr] at hok; simp at hok
  · rw [if_neg hcr] at hok ⊢
    cases hfin : finalizePass (runLoopP sd (initState tc) msgs).1 with
    | error e => rw [hfin] at hok; simp at hok
    | ok q =>
    obtain ⟨sF, fout⟩ := q
    simp only [] at hok ⊢
    obtain ⟨hf1, hf2⟩ := finalize_numbering _ _ _ hfin
    rcases hf2 with ⟨hfo, hft⟩ | ⟨hflen, hft, hfmap⟩
    · subst hfo
      simp only [List.append_nil]
      refine ⟨?_, ?_⟩
      · rw [hft, h2]
      · exact h3
    · rcases fout with - | ⟨t, fo2⟩
      · simp at hflen
      · rcases fo2 with - | ⟨t2, fo3⟩
        · simp only [List.map_cons, List.map_nil, List.cons.injEq, and_true] at hfmap
          simp only [List.length_append, List.length_cons, List.length_nil,
            List.map_append, List.map_cons, List.map_nil]
          refine ⟨?_, ?_⟩
          · rw [hft, h2]
          · rw [h3, hfmap, h1, h2]
            have harg : tc + (((runLoopP sd (initState tc) msgs).2.1.length : Nat) : Int) + 1 =
                (tc + 1) + (((runLoopP sd (initState tc) msgs).2.1.length : Nat) : Int) := by
              ring
            rw [harg, consecInts_snoc]
        · simp at hflen

/-- C5: turn sequence numbers are strictly increasing with no gaps
across any sequence of passes that complete without raising, with the
turn counter persisted between passes exactly as the session cursor
stores it (`turn_count + turns`): the concatenated finalized turns of
the whole sequence are numbered `tc+1, tc+2, ...` consecutively, and
the final persisted counter is the initial counter plus the number of
finalized turns. -/
theorem C5_turn_numbers_consecutive (sd : List (String × List ToolCall)) (tc : Int)
    (passes : List (List Json)) (out : List Turn) (tcF : Int)
    (h : runPasses sd tc passes = (out, tcF, false)) :
    out.map Turn.turnNum = consecInts (tc + 1) out.length ∧
    tcF = tc + (out.length : Int) := by
  induction passes generalizing tc out tcF with
  | nil =>
      simp only [runPasses, Prod.mk.injEq] at h
      obtain ⟨h1, h2, -⟩ := h
      subst h1
      subst h2
      simp [consecInts]
  | cons p ps ih =>
      simp only [runPasses] at h
      by_cases hcr : (groupPass sd tc p).2.2 = true
      · rw [if_pos hcr] at h
        simp only [Prod.mk.injEq] at h
        exact absurd h.2.2 (by simp)
      · rw [if_neg hcr] at h
        simp only [Prod.mk.injEq] at h
        obtain ⟨hout, htcF, hflag⟩ := h
        have hgp := groupPass_numbering sd tc p (by simpa using hcr)
        obtain ⟨hcount, hmap⟩ := hgp
        have hR : runPasses sd (tc + ((groupPass sd tc p).2.1 : Nat)) ps =
            ((runPasses sd (tc + ((groupPass sd tc p).2.1 : Nat)) ps).1,
             (runPasses sd (tc + ((groupPass sd tc p).2.1 : Nat)) ps).2.1, false) := by
          rw [← hflag]
        obtain ⟨ihmap, ihtc⟩ := ih _ _ _ hR
        subst hout
        subst htcF
        constructor
        · rw [List.map_append, hmap, ihmap]
          have harg : tc + (((groupPass sd tc p).2.1 : Nat) : Int) + 1 =
              (tc + 1) + ((groupPass sd tc p).1.length : Int) := by
            rw [hcount]; ring
          rw [harg, consecInts_append]
          congr 1
          simp
        · rw [ihtc, hcount]
          simp [List.length_append]
          ring

/-- C5 (witness): the theorem applied to two concrete passes from a
persisted counter of 5 — the two finalized turns are numbered 6 and 7
and the persisted counter ends at 7 = 5 + 2. -/
theorem C5_witness :
    ([⟨6, uMsg, [aMsg], []⟩, ⟨7, uMsg2, [aMsg2], []⟩] : List Turn).map Turn.turnNum =
      consecInts 6 2 ∧ (7 : Int) = 5 + 2 := by
  have h := C5_turn_numbers_consecutive [] 5 [[uMsg, aMsg], [uMsg2, aMsg2]]
    [⟨6, uMsg, [aMsg], []⟩, ⟨7, uMsg2, [aMsg2], []⟩] 7 (by rfl)
  simpa using h

theorem foldlM_err_indep {α β : Type} (f : β → α → Py β)
    (hf : ∀ (a : α) (b1 b2 : β) (e1 : String), f b1 a = .error e1 →
      ∃ e2, f b2 a = .error e2) :
    ∀ (l : List α) (b1 b2 : β) (e1 : String), l.foldlM f b1 = .error e1 →
      ∃ e2, l.foldlM f b2 = .error e2 := by
  intro l
  induction l with
  | nil => intro b1 b2 e1 h; simp [List.foldlM_nil] at h
  | cons x xs ih =>
      intro b1 b2 e1 h
      rw [List.foldlM_cons] at h ⊢
      cases h1 : f b1 x with
      | error e =>
          obtain ⟨e2, h2⟩ := hf x b1 b2 e h1
          exact ⟨e2, by rw [h2, py_bind_error]⟩
      | ok c1 =>
          rw [h1, py_bind_ok] at h
          cases h2 : f b2 x with
          | error e2 => exact ⟨e2, by rw [py_bind_error]⟩
          | ok c2 =>
              obtain ⟨e2, h3⟩ := ih c1 c2 e1 h
              exact ⟨e2, by rw [py_bind_ok, h3]⟩

theorem linkItem_err_indep (aid : String) (tools : List ToolCall) (item : Json)
    (m1 m2 : List (Json × String × List ToolCall)) (e1 : String)
    (h : linkItem aid tools m1 item = .error e1) :
    ∃ e2, linkItem aid tools m2 item = .error e2 := by
  unfold linkItem at h ⊢
  cases item with
  | obj ifields =>
      simp only [] at h ⊢
      by_cases h1 : pyEq ((lookupField ifields "type").getD .null) (.str "tool_result") = true
      · rw [if_pos h1] at h ⊢
        by_cases h2 : truthy ((lookupField ifields "tool_use_id").getD .null) = true
        · rw [if_pos h2] at h ⊢
          by_cases h3 : hashable ((lookupField ifields "tool_use_id").getD .null) = true
          · rw [if_pos h3] at h; exact Except.noConfusion h
          · rw [if_neg h3] at h ⊢; exact ⟨_, rfl⟩
        · rw [if_neg h2] at h; exact Except.noConfusion h
      · rw [if_neg h1] at h; exact Except.noConfusion h
  | null => exact Except.noConfusion h
  | bool b => exact Except.noConfusion h
  | num n => exact Except.noConfusion h
  | str s => exact Except.noConfusion h
  | arr l => exact Except.noConfusion h

theorem link_err_indep (aid : String) (tools : List ToolCall) (items : List Json)
    (m1 m2 : List (Json × String × List ToolCall)) (e1 : String)
    (h : linkSubagentTools aid tools items m1 = .error e1) :
    ∃ e2, linkSubagentTools aid tools items m2 = .error e2 := by
  unfold linkSubagentTools at h ⊢
  exact foldlM_err_indep (linkItem aid tools)
    (fun a b1 b2 e h => linkItem_err_indep aid tools a b1 b2 e h) items m1 m2 e1 h

/-- The grouping decisions read only the five turn-building components
and the sum `turn_count + turns`: stepping two equivalent states with
the same message raises together or yields equivalent states with
identical emissions. -/
theorem step_equivS (sd : List (String × List ToolCall)) (m : Json) (s t : GroupState)
    (hE : EquivS s t) : OutRel (step sd s m) (step sd t m) := by
  obtain ⟨h1, h2, h3, h4, h5, h6⟩ := hE
  cases s with
  | mk cu cas caps cmid ctr tc1 tn1 mp1 =>
  cases t with
  | mk cu2 cas2 caps2 cmid2 ctr2 tc2 tn2 mp2 =>
  simp only [] at h1 h2 h3 h4 h5 h6
  subst h1
  subst h2
  subst h3
  subst h4
  subst h5
  have hsum1 : tc1 + ((tn1 + 1 : Nat) : Int) = tc2 + ((tn2 + 1 : Nat) : Int) := by
    push_cast
    omega
  unfold step OutRel
  simp only []
  cases hr : msgRole m with
  | error e => simp only [py_bind_error]
  | ok role =>
  simp only [py_bind_ok]
  by_cases hu : pyEq role (.str "user") = true
  · rw [if_pos hu, if_pos hu]
    cases htr : is_tool_result m with
    | error e => simp only [py_bind_error]
    | ok tr =>
    simp only [py_bind_ok]
    by_cases ht2 : tr = true
    · rw [if_pos ht2, if_pos ht2]
      cases hg : pyGet m "toolUseResult" with
      | error e => simp only [py_bind_error]
      | ok tur =>
      simp only [py_bind_ok]
      cases tur with
      | obj turFs =>
          (try simp only [])
          by_cases hag : truthy ((lookupField turFs "agentId").getD .null) = true
          · rw [if_pos hag, if_pos hag]
            cases hAid : (lookupField turFs "agentId").getD .null with
            | str aid =>
                (try simp only [])
                cases hlk : sd.lookup aid with
                | none => exact ⟨⟨rfl, rfl, rfl, rfl, rfl, h6⟩, rfl⟩
                | some tools =>
                    (try simp only [])
                    cases hc : get_content m with
                    | error e => simp only [py_bind_error]
                    | ok content =>
                    simp only [py_bind_ok]
                    cases content with
                    | arr items =>
                        (try simp only [])
                        cases hl1 : linkSubagentTools aid tools items mp1 with
                        | error e1 =>
                            cases hl2 : linkSubagentTools aid tools items mp2 with
                            | error e2 => simp only [py_bind_error]
                            | ok x2 =>
                                obtain ⟨e2, hcontra⟩ :=
                                  link_err_indep aid tools items mp1 mp2 e1 hl1
                                rw [hl2] at hcontra
                                exact Except.noConfusion hcontra
                        | ok x1 =>
                            cases hl2 : linkSubagentTools aid tools items mp2 with
                            | error e2 =>
                                obtain ⟨e3, hcontra⟩ :=
                                  link_err_indep aid tools items mp2 mp1 e2 hl2
                                rw [hl1] at hcontra
                                exact Except.noConfusion hcontra
                            | ok x2 =>
                                simp only [py_bind_ok]
                                exact ⟨⟨rfl, rfl, rfl, rfl, rfl, h6⟩, rfl⟩
                    | null => exact ⟨⟨rfl, rfl, rfl, rfl, rfl, h6⟩, rfl⟩
                    | bool b => exact ⟨⟨rfl, rfl, rfl, rfl, rfl, h6⟩, rfl⟩
                    | num n => exact ⟨⟨rfl, rfl, rfl, rfl, rfl, h6⟩, rfl⟩
                    | str sc => exact ⟨⟨rfl, rfl, rfl, rfl, rfl, h6⟩, rfl⟩
                    | obj fs => exact ⟨⟨rfl, rfl, rfl, rfl, rfl, h6⟩, rfl⟩
            | arr l => trivial
            | obj fs => trivial
            | null => exact ⟨⟨rfl, rfl, rfl, rfl, rfl, h6⟩, rfl⟩
            | bool b => exact ⟨⟨rfl, rfl, rfl, rfl, rfl, h6⟩, rfl⟩
            | num n => exact ⟨⟨rfl, rfl, rfl, rfl, rfl, h6⟩, rfl⟩
          · rw [if_neg hag, if_neg hag]
            exact ⟨⟨rfl, rfl, rfl, rfl, rfl, h6⟩, rfl⟩
      | null => exact ⟨⟨rfl, rfl, rfl, rfl, rfl, h6⟩, rfl⟩
      | bool b => exact ⟨⟨rfl, rfl, rfl, rfl, rfl, h6⟩, rfl⟩
      | num n => exact ⟨⟨rfl, rfl, rfl, rfl, rfl, h6⟩, rfl⟩
      | str sc => exact ⟨⟨rfl, rfl, rfl, rfl, rfl, h6⟩, rfl⟩
      | arr l => exact ⟨⟨rfl, rfl, rfl, rfl, rfl, h6⟩, rfl⟩
    · rw [if_neg ht2, if_neg ht2]
      by_cases hmm : (truthy cmid && !caps.isEmpty) = true
      · rw [if_pos hmm, if_pos hmm]
        cases hmg : merge_assistant_parts caps with
        | error e => simp only [py_bind_error]
        | ok merged =>
        simp only [py_pure_eq_ok, py_bind_ok]
        by_cases he : (truthy cu && !(cas ++ [merged]).isEmpty) = true
        · rw [if_pos he, if_pos he]
          (try simp only [])
          refine ⟨⟨rfl, rfl, rfl, rfl, rfl, hsum1⟩, ?_⟩
          rw [hsum1]
        · rw [if_neg he, if_neg he]
          exact ⟨⟨rfl, rfl, rfl, rfl, rfl, h6⟩, rfl⟩
      · rw [if_neg hmm, if_neg hmm]
        simp only [py_pure_eq_ok, py_bind_ok]
        by_cases he : (truthy cu && !cas.isEmpty) = true
        · rw [if_pos he, if_pos he]
          (try simp only [])
          refine ⟨⟨rfl, rfl, rfl, rfl, rfl, hsum1⟩, ?_⟩
          rw [hsum1]
        · rw [if_neg he, if_neg he]
          exact ⟨⟨rfl, rfl, rfl, rfl, rfl, h6⟩, rfl⟩
  · rw [if_neg hu, if_neg hu]
    by_cases ha : pyEq role (.str "assistant") = true
    · rw [if_pos ha, if_pos ha]
      cases hid : assistantMsgId m with
      | error e => simp only [py_bind_error]
      | ok mid =>
      simp only [py_bind_ok]
      by_cases hj : truthy mid = true
      · simp only [hj, Bool.not_true]
        rw [if_neg (by simp : ¬(false = true)), if_neg (by simp : ¬(false = true))]
        by_cases hsame : pyEq mid cmid = true
        · rw [if_pos hsame, if_pos hsame]
          exact ⟨⟨rfl, rfl, rfl, rfl, rfl, h6⟩, rfl⟩
        · rw [if_neg hsame, if_neg hsame]
          by_cases hmm : (truthy cmid && !caps.isEmpty) = true
          · rw [if_pos hmm, if_pos hmm]
            cases hmg : merge_assistant_parts caps with
            | error e => simp only [py_bind_error]
            | ok merged =>
            simp only [py_pure_eq_ok, py_bind_ok]
            exact ⟨⟨rfl, rfl, rfl, rfl, rfl, h6⟩, by trivial⟩
          · rw [if_neg hmm, if_neg hmm]
            simp only [py_pure_eq_ok, py_bind_ok]
            exact ⟨⟨rfl, rfl, rfl, rfl, rfl, h6⟩, by trivial⟩
      · rw [Bool.not_eq_true] at hj
        simp only [hj, Bool.not_false, if_true, py_pure_eq_ok]
        exact ⟨⟨rfl, rfl, rfl, rfl, rfl, h6⟩, by trivial⟩
    · rw [if_neg ha, if_neg ha]
      exact ⟨⟨rfl, rfl, rfl, rfl, rfl, h6⟩, rfl⟩

/-- Splitting the message list splits the loop run: a crash in the
prefix ends the run there; otherwise the suffix continues from the
prefix's final state with the emissions concatenated. -/
theorem runLoopP_append (sd : List (String × List ToolCall)) :
    ∀ (xs ys : List Json) (s : GroupState),
    runLoopP sd s (xs ++ ys) =
      if (runLoopP sd s xs).2.2 then runLoopP sd s xs
      else ((runLoopP sd (runLoopP sd s xs).1 ys).1,
            (runLoopP sd s xs).2.1 ++ (runLoopP sd (runLoopP sd s xs).1 ys).2.1,
            (runLoopP sd (runLoopP sd s xs).1 ys).2.2) := by
  intro xs
  induction xs with
  | nil =>
      intro ys s
      rfl
  | cons m ms ih =>
      intro ys s
      simp only [List.cons_append, runLoopP]
      cases hstep : step sd s m with
      | error e => simp
      | ok p =>
          obtain ⟨s1, o⟩ := p
          simp only [List.append_eq]
          rw [ih ys s1]
          by_cases hcr : (runLoopP sd s1 ms).2.2 = true
          · simp [hcr]
          · simp [hcr, List.append_assoc]

/-- The loop preserves state equivalence message by message: over any
message list, two equivalent start states emit the same turns, crash
together, and end in equivalent states. -/
theorem runLoopP_equivS (sd : List (String × List ToolCall)) :
    ∀ (msgs : List Json) (s t : GroupState), EquivS s t →
    EquivS (runLoopP sd s msgs).1 (runLoopP sd t msgs).1 ∧
    (runLoopP sd s msgs).2.1 = (runLoopP sd t msgs).2.1 ∧
    (runLoopP sd s msgs).2.2 = (runLoopP sd t msgs).2.2 := by
  intro msgs
  induction msgs with
  | nil =>
      intro s t hE
      exact ⟨hE, rfl, rfl⟩
  | cons m ms ih =>
      intro s t hE
      have hs := step_equivS sd m s t hE
      simp only [runLoopP]
      cases h1 : step sd s m with
      | error e1 =>
          cases h2 : step sd t m with
          | error e2 => exact ⟨hE, rfl, rfl⟩
          | ok p2 =>
              obtain ⟨tt, pp⟩ := p2
              rw [h1, h2] at hs
              exact False.elim hs
      | ok p1 =>
          obtain ⟨ss, oo⟩ := p1
          cases h2 : step sd t m with
          | error e2 =>
              rw [h1, h2] at hs
              exact False.elim hs
          | ok p2 =>
              obtain ⟨tt, pp⟩ := p2
              rw [h1, h2] at hs
              have hs2 : EquivS ss tt ∧ oo = pp := hs
              obtain ⟨hE2, hoo⟩ := hs2
              subst hoo
              obtain ⟨ihE, iho, ihf⟩ := ih ss tt hE2
              exact ⟨ihE, congrArg (fun l => oo ++ l) iho, ihf⟩

/-- End-of-log finalization steps two equivalent states together: both
raise, or both succeed with equivalent states and identical
emissions. -/
theorem finalize_equivS (s t : GroupState) (hE : EquivS s t) :
    OutRel (finalizePass s) (finalizePass t) := by
  obtain ⟨h1, h2, h3, h4, h5, h6⟩ := hE
  cases s with
  | mk cu cas caps cmid ctr tc1 tn1 mp1 =>
  cases t with
  | mk cu2 cas2 caps2 cmid2 ctr2 tc2 tn2 mp2 =>
  simp only [] at h1 h2 h3 h4 h5 h6
  subst h1
  subst h2
  subst h3
  subst h4
  subst h5
  have hsum1 : tc1 + ((tn1 + 1 : Nat) : Int) = tc2 + ((tn2 + 1 : Nat) : Int) := by
    push_cast
    omega
  unfold finalizePass OutRel
  simp only []
  by_cases hmm : (truthy cmid && !caps.isEmpty) = true
  · rw [if_pos hmm, if_pos hmm]
    cases hmg : merge_assistant_parts caps with
    | error e => simp only [py_bind_error]
    | ok merged =>
    simp only [py_pure_eq_ok, py_bind_ok]
    by_cases he : (truthy cu && !(cas ++ [merged]).isEmpty) = true
    · rw [if_pos he, if_pos he]
      (try simp only [])
      refine ⟨⟨rfl, rfl, rfl, rfl, rfl, hsum1⟩, ?_⟩
      rw [hsum1]
    · rw [if_neg he, if_neg he]
      exact ⟨⟨rfl, rfl, rfl, rfl, rfl, h6⟩, rfl⟩
  · rw [if_neg hmm, if_neg hmm]
    simp only [py_pure_eq_ok, py_bind_ok]
    by_cases he : (truthy cu && !cas.isEmpty) = true
    · rw [if_pos he, if_pos he]
      (try simp only [])
      refine ⟨⟨rfl, rfl, rfl, rfl, rfl, hsum1⟩, ?_⟩
      rw [hsum1]
    · rw [if_neg he, if_neg he]
      exact ⟨⟨rfl, rfl, rfl, rfl, rfl, h6⟩, rfl⟩

/-- The loop on a list beginning with a plain (non-tool-result) user
message: the head performs the end-of-log flush and the new-turn reset,
and the loop continues over the tail. -/
theorem runLoopP_user_cons (sd : List (String × List ToolCall)) (s : GroupState)
    (u : Json) (ys : List Json)
    (hr : msgRole u = .ok (.str "user")) (htr : is_tool_result u = .ok false) :
    runLoopP sd s (u :: ys) =
      match finalizePass s with
      | .error _ => (s, [], true)
      | .ok (sF, fout) =>
          ((runLoopP sd (resetOn u sF) ys).1,
           fout ++ (runLoopP sd (resetOn u sF) ys).2.1,
           (runLoopP sd (resetOn u sF) ys).2.2) := by
  have hstep := step_user_flush sd s u hr htr
  simp only [runLoopP]
  rw [hstep]
  cases hfin : finalizePass s with
  | error e => rfl
  | ok p =>
      obtain ⟨sF, fout⟩ := p
      rfl

/-- C1 (amended): resumption is idempotent exactly at turn boundaries.
When the resumed pass starts with a plain (non-tool-result) user
message, the split run (pass over the prefix, counter persisted, pass
over the suffix) emits the same sequence of finalized turns as the
single pass over the whole log, raises exactly when it does, and, when
no pass raises, persists the same final turn counter. -/
theorem C1_amended_boundary_split (sd : List (String × List ToolCall)) (tc : Int)
    (xs ys : List Json) (u : Json)
    (hr : msgRole u = .ok (.str "user")) (htr : is_tool_result u = .ok false) :
    (runPasses sd tc [xs ++ u :: ys]).1 = (runPasses sd tc [xs, u :: ys]).1 ∧
    (runPasses sd tc [xs ++ u :: ys]).2.2 = (runPasses sd tc [xs, u :: ys]).2.2 ∧
    ((runPasses sd tc [xs ++ u :: ys]).2.2 = false →
      (runPasses sd tc [xs ++ u :: ys]).2.1 = (runPasses sd tc [xs, u :: ys]).2.1) := by
  have hA := runLoopP_append sd xs (u :: ys) (initState tc)
  have hnum1 := runLoopP_numbering sd xs (initState tc)
  obtain ⟨r1, hx⟩ : ∃ r, runLoopP sd (initState tc) xs = r := ⟨_, rfl⟩
  obtain ⟨s1, o1, f1⟩ := r1
  rw [hx] at hA hnum1
  cases f1 with
  | true =>
      simp only [] at hA
      rw [if_pos trivial] at hA
      have hg1 : groupPass sd tc (xs ++ u :: ys) = (o1, s1.turns, true) := by
        unfold groupPass
        rw [hA]
        all_goals rfl
      have hg2 : groupPass sd tc xs = (o1, s1.turns, true) := by
        unfold groupPass
        rw [hx]
        all_goals rfl
      simp [runPasses, hg1, hg2]
  | false =>
      simp only [] at hA
      rw [if_neg (by simp : ¬(false = true))] at hA
      have hs1tc : s1.turnCount = tc := hnum1.1
      have hB := runLoopP_user_cons sd s1 u ys hr htr
      cases hfin : finalizePass s1 with
      | error e =>
          rw [hfin] at hB
          rw [hB] at hA
          simp only [] at hA
          have hg1 : groupPass sd tc (xs ++ u :: ys) = (o1 ++ [], s1.turns, true) := by
            unfold groupPass
            rw [hA]
            all_goals rfl
          have hg2 : groupPass sd tc xs = (o1, s1.turns, true) := by
            unfold groupPass
            rw [hx]
            simp only []
            rw [if_neg (by simp : ¬(false = true))]
            rw [hfin]
          simp [runPasses, hg1, hg2]
      | ok p =>
          obtain ⟨sF, fout⟩ := p
          rw [hfin] at hB
          simp only [] at hB
          have hTCsF : sF.turnCount = tc := by
            have h := (finalize_numbering s1 sF fout hfin).1
            rw [h]
            exact hs1tc
          obtain ⟨r3, hy⟩ : ∃ r, runLoopP sd (resetOn u sF) ys = r := ⟨_, rfl⟩
          obtain ⟨s3, o3, f3⟩ := r3
          have hnum3 := runLoopP_numbering sd ys (resetOn u sF)
          rw [hy] at hB hnum3
          simp only [] at hB
          rw [hB] at hA
          simp only [] at hA
          have hs3tc : s3.turnCount = tc := hnum3.1.trans hTCsF
          have hfin0 : finalizePass (initState (tc + ((sF.turns : Nat) : Int))) =
              .ok (initState (tc + ((sF.turns : Nat) : Int)), []) := rfl
          have hB2 := runLoopP_user_cons sd (initState (tc + ((sF.turns : Nat) : Int)))
            u ys hr htr
          rw [hfin0] at hB2
          simp only [] at hB2
          obtain ⟨r3p, hy2⟩ :
              ∃ r, runLoopP sd (resetOn u (initState (tc + ((sF.turns : Nat) : Int)))) ys = r :=
            ⟨_, rfl⟩
          obtain ⟨s3p, o3p, f3p⟩ := r3p
          have hnum3p := runLoopP_numbering sd ys
            (resetOn u (initState (tc + ((sF.turns : Nat) : Int))))
          rw [hy2] at hB2 hnum3p
          simp only [] at hB2
          have hs3ptc : s3p.turnCount = tc + ((sF.turns : Nat) : Int) := hnum3p.1
          have hEq : EquivS (resetOn u sF)
              (resetOn u (initState (tc + ((sF.turns : Nat) : Int)))) := by
            refine ⟨rfl, rfl, rfl, rfl, rfl, ?_⟩
            show sF.turnCount + ((sF.turns : Nat) : Int) =
              (tc + ((sF.turns : Nat) : Int)) + (((0 : Nat) : Nat) : Int)
            rw [hTCsF]
            push_cast
            ring
          have hEquiv := runLoopP_equivS sd ys (resetOn u sF)
            (resetOn u (initState (tc + ((sF.turns : Nat) : Int)))) hEq
          rw [hy, hy2] at hEquiv
          obtain ⟨hE3, ho3, hf3⟩ := hEquiv
          simp only [] at hE3 ho3 hf3
          subst ho3
          subst hf3
          have hg2 : groupPass sd tc xs = (o1 ++ fout, sF.turns, false) := by
            unfold groupPass
            rw [hx]
            simp only []
            rw [if_neg (by simp : ¬(false = true))]
            rw [hfin]
          cases f3 with
          | true =>
              have hg1 : groupPass sd tc (xs ++ u :: ys) =
                  (o1 ++ (fout ++ o3), s3.turns, true) := by
                unfold groupPass
                rw [hA]
                all_goals rfl
              have hgp2 : groupPass sd (tc + ((sF.turns : Nat) : Int)) (u :: ys) =
                  ([] ++ o3, s3p.turns, true) := by
                unfold groupPass
                rw [hB2]
                all_goals rfl
              simp [runPasses, hg1, hg2, hgp2, List.append_assoc]
          | false =>
              have hOF := finalize_equivS s3 s3p hE3
              cases hfin3 : finalizePass s3 with
              | error e3 =>
                  cases hfin3p : finalizePass s3p with
                  | error e3p =>
                      have hg1 : groupPass sd tc (xs ++ u :: ys) =
                          (o1 ++ (fout ++ o3), s3.turns, true) := by
                        unfold groupPass
                        rw [hA]
                        simp only []
                        rw [if_neg (by simp : ¬(false = true))]
                        rw [hfin3]
                      have hgp2 : groupPass sd (tc + ((sF.turns : Nat) : Int)) (u :: ys) =
                          ([] ++ o3, s3p.turns, true) := by
                        unfold groupPass
                        rw [hB2]
                        simp only []
                        rw [if_neg (by simp : ¬(false = true))]
                        rw [hfin3p]
                      simp [runPasses, hg1, hg2, hgp2, List.append_assoc]
                  | ok p4p =>
                      obtain ⟨s4p, o4p⟩ := p4p
                      rw [hfin3, hfin3p] at hOF
                      exact False.elim hOF
              | ok p4 =>
                  obtain ⟨s4, o4⟩ := p4
                  cases hfin3p : finalizePass s3p with
                  | error e3p =>
                      rw [hfin3, hfin3p] at hOF
                      exact False.elim hOF
                  | ok p4p =>
                      obtain ⟨s4p, o4p⟩ := p4p
                      rw [hfin3, hfin3p] at hOF
                      have hOF2 : EquivS s4 s4p ∧ o4 = o4p := hOF
                      obtain ⟨hE4, ho4⟩ := hOF2
                      subst ho4
                      have hs4tc : s4.turnCount = tc := by
                        have h := (finalize_numbering s3 s4 o4 hfin3).1
                        rw [h]
                        exact hs3tc
                      have hs4ptc : s4p.turnCount = tc + ((sF.turns : Nat) : Int) := by
                        have h := (finalize_numbering s3p s4p o4 hfin3p).1
                        rw [h]
                        exact hs3ptc
                      have hsum4 := hE4.2.2.2.2.2
                      rw [hs4tc, hs4ptc] at hsum4
                      have hg1 : groupPass sd tc (xs ++ u :: ys) =
                          ((o1 ++ (fout ++ o3)) ++ o4, s4.turns, false) := by
                        unfold groupPass
                        rw [hA]
                        simp only []
                        rw [if_neg (by simp : ¬(false = true))]
                        rw [hfin3]
                      have hgp2 : groupPass sd (tc + ((sF.turns : Nat) : Int)) (u :: ys) =
                          (([] ++ o3) ++ o4, s4p.turns, false) := by
                        unfold groupPass
                        rw [hB2]
                        simp only []
                        rw [if_neg (by simp : ¬(false = true))]
                        rw [hfin3p]
                      simp [runPasses, hg1, hg2, hgp2, List.append_assoc]
                      omega

/-- C1 (amended, witness): the boundary-split property at the concrete
log `[uMsg, aMsg, uMsg2, aMsg2]` split before the plain user message
`uMsg2`. -/
theorem C1_witness :
    msgRole uMsg2 = .ok (.str "user") ∧ is_tool_result uMsg2 = .ok false ∧
    ((runPasses [] 0 [[uMsg, aMsg] ++ uMsg2 :: [aMsg2]]).1 =
        (runPasses [] 0 [[uMsg, aMsg], uMsg2 :: [aMsg2]]).1 ∧
      (runPasses [] 0 [[uMsg, aMsg] ++ uMsg2 :: [aMsg2]]).2.2 =
        (runPasses [] 0 [[uMsg, aMsg], uMsg2 :: [aMsg2]]).2.2 ∧
      ((runPasses [] 0 [[uMsg, aMsg] ++ uMsg2 :: [aMsg2]]).2.2 = false →
        (runPasses [] 0 [[uMsg, aMsg] ++ uMsg2 :: [aMsg2]]).2.1 =
          (runPasses [] 0 [[uMsg, aMsg], uMsg2 :: [aMsg2]]).2.1)) :=
  ⟨rfl, rfl, C1_amended_boundary_split [] 0 [uMsg, aMsg] [aMsg2] uMsg2 rfl rfl⟩

/-- C1 (counterexample): the claim quantifies over every split point.
Splitting the two-line log `[uMsg, aMsg]` at N = 1 refutes it: the
single pass finalizes one turn, while the pass over `[uMsg]` finalizes
none (user-only open turn dropped, counter stays 0) and the resumed
pass over `[aMsg]` with the saved counter also finalizes none (the
assistant fragment has no current user), so the split run yields a
different multiset of turns and a different final counter. -/
theorem C1_counterexample :
    (groupPass [] 0 [uMsg, aMsg]).1.length = 1 ∧
    (groupPass [] 0 [uMsg, aMsg]).2.1 = 1 ∧
    groupPass [] 0 [uMsg] = ([], 0, false) ∧
    groupPass [] 0 [aMsg] = ([], 0, false) := by
  refine ⟨rfl, rfl, ?_, ?_⟩ <;> rfl

/-- C2 (counterexample): the claim says a user-only open turn is
re-entered and eventually emitted on the next incremental pass.  On the
log `[uMsg]` the pass emits nothing and advances the cursor to line 1;
after `aMsg` is appended, the next pass with the saved cursor reads only
`[aMsg]` and again emits nothing — while a single pass over both lines
from the initial state emits the turn.  The turn is lost, not
re-entered. -/
theorem C2_counterexample :
    (process_transcript [] "s" [some uMsg] (Json.obj []) "T0").map
      (fun r => (r.turns, r.emitted.length, r.newState)) = .ok (0, 0, state1) ∧
    (process_transcript [] "s" [some uMsg, some aMsg] state1 "T1").map
      (fun r => (r.turns, r.emitted.length)) = .ok (0, 0) ∧
    (process_transcript [] "s" [some uMsg, some aMsg] (Json.obj []) "T1").map
      (fun r => (r.turns, r.emitted.length)) = .ok (1, 1) := by
  exact ⟨rfl, rfl, rfl⟩

end ClaimProofs
